import Mathlib

/-!
# legacybridge: conversion of legacy flow definitions

A shallow embedding of `config/flow/flow.go` (package `flow`): the functions
`getComplexObjectInfo`, `convertValues`, `createActivityConfig`, `createLink`,
`createTask` and `convertLegacyFlow`, followed by theorems about them.

Conventions of the embedding

* A Go `interface{}` value is a term of `Any`, a closed sum of the dynamic
  types the source distinguishes (`string`, `map[string]interface{}`,
  `*legacyData.ComplexObject`) and of the other shapes a decoded document
  holds. Pointers held by the legacy document are non-nil.
* A Go `map[string]T` is an association list with distinct keys
  (`AList`); `range` visits its entries in list order, `len` is the number of
  entries, and a nil map and an empty map are the same value. The source
  never tells the two apart.
* A struct field that the source assigns only under a condition has an
  `Option` type; `none` is the unset (nil) field.
* A Go `error` is represented by its message.
* `json.Unmarshal`, `config.ConvertLegacyAttr` and
  `config.ConvertLegacyMappings` are not part of `flow.go`; the functions that
  call them take them as the fields of a `Collab` argument.
-/

namespace Flow

/-! ## Values -/

/-- A Go `interface{}` value, by dynamic type. -/
inductive Any where
  /-- The nil interface. -/
  | null : Any
  /-- A `bool`. -/
  | bool (b : Bool) : Any
  /-- A `float64`, kept as the JSON number literal that denotes it. -/
  | num (lit : String) : Any
  /-- A `string`. -/
  | str (s : String) : Any
  /-- A `[]interface{}`. -/
  | arr (xs : List Any) : Any
  /-- A `map[string]interface{}`, as its list of entries. -/
  | obj (kvs : List (String × Any)) : Any
  /-- A non-nil `*legacyData.ComplexObject` with its two fields. -/
  | complex (metadata : String) (value : Any) : Any
  /-- A value of any other dynamic type, told apart by a tag. -/
  | other (tag : Nat) : Any

instance : Inhabited Any := ⟨Any.null⟩

/-- The Go comparison `v == s` of an interface value with a string constant:
true exactly when the dynamic type is `string` and the text is `s`. -/
def Any.eqStr : Any → String → Bool
  | Any.str t, s => decide (t = s)
  | _, _ => false

/-- The Go comparison `v != nil` of an interface value. -/
def Any.notNil : Any → Bool
  | Any.null => false
  | _ => true

/-- A Go `map[string]T`. -/
abbrev GoMap (α : Type) : Type := AList (fun _ : String => α)

/-- A Go `map[string]interface{}`. -/
abbrev ValueMap : Type := GoMap Any

/-- Go `len(m)`. -/
def GoMap.len {α : Type} (m : GoMap α) : Nat := m.entries.length

/-- Go `m[k] = v`. -/
def GoMap.set {α : Type} (m : GoMap α) (k : String) (v : α) : GoMap α := m.insert k v

/-- Go `delete(m, k)`. -/
def GoMap.delete {α : Type} (m : GoMap α) (k : String) : GoMap α := m.erase k

/-- Go `v, ok := m[k]`, with `none` for `ok = false`. -/
def GoMap.get {α : Type} (m : GoMap α) (k : String) : Option α := m.lookup k

/-- Go `for k, v := range src { dst[k] = v }`. -/
def GoMap.assignAll {α : Type} (dst src : GoMap α) : GoMap α :=
  src.entries.foldl (fun acc e => GoMap.set acc e.1 e.2) dst

/-- The fields of `legacyData.ComplexObject`. -/
structure legacyData.ComplexObject where
  Metadata : String
  Value : Any

/-- The fields of `schema.Def` that the converter fills in. -/
structure schema.Def where
  Type_ : String
  Value : String
deriving DecidableEq

/-- A schema mapping: a `map[string]interface{}` whose values are `*schema.Def`. -/
abbrev SchemaMap : Type := GoMap schema.Def

/-- Go `v, ok := t[k]` on the entries of a `map[string]interface{}` held in an
interface value: the zero value `nil` with `ok = false` when `k` is absent. -/
def index (t : List (String × Any)) (k : String) : Any × Bool :=
  match t.lookup k with
  | some v => (v, true)
  | none => (Any.null, false)

/-- Go `s, ok := x.(string)`: the zero value `""` with `ok = false` when `x`
does not hold a string. -/
def assertString : Any → String × Bool
  | Any.str s => (s, true)
  | _ => ("", false)

/-! ## A model of the JSON decoder

`json.Unmarshal` belongs to the Go standard library. The converter takes the
decoder as an argument; `Json.unmarshal` below is a model of it on the target
type `*legacyData.ComplexObject`, used where a concrete decoder is needed. It
follows `encoding/json`: the text must be one valid JSON value; the literal
`null` leaves the struct unchanged; any other non-object is a type error; the
members of an object are stored in the order of the text, keys matched to the
fields `metadata` and `value` without regard to case, unknown keys skipped; a
`metadata` member must be a string or `null`; a number stored under `value`
must be in the float64 range. Texts are sequences of Unicode characters; the
nesting limit of the decoder is not modelled. -/

namespace Json

/-- JSON white space. -/
def isSpace (c : Char) : Bool := c == ' ' || c == '\t' || c == '\r' || c == '\n'

/-- The input without its leading white space. -/
def skipSpace : List Char → List Char
  | [] => []
  | c :: cs => if isSpace c then skipSpace cs else c :: cs

/-- The value of a hexadecimal digit. -/
def hexVal (c : Char) : Option Nat :=
  if '0' ≤ c ∧ c ≤ '9' then some (c.toNat - '0'.toNat)
  else if 'a' ≤ c ∧ c ≤ 'f' then some (c.toNat - 'a'.toNat + 10)
  else if 'A' ≤ c ∧ c ≤ 'F' then some (c.toNat - 'A'.toNat + 10)
  else none

/-- The four hexadecimal digits after a `\u` escape, as a number. -/
def getu4 : List Char → Option (Nat × List Char)
  | a :: b :: c :: d :: rest =>
    match hexVal a, hexVal b, hexVal c, hexVal d with
    | some x, some y, some z, some w => some (((x * 16 + y) * 16 + z) * 16 + w, rest)
    | _, _, _, _ => none
  | _ => none

/-- The Unicode replacement character, which stands for a lone surrogate. -/
def replacementChar : Char := Char.ofNat 0xFFFD

/-- Whether a UTF-16 code unit is a surrogate. -/
def isSurrogate (u : Nat) : Bool := 0xD800 ≤ u && u < 0xE000

/-- The character encoded by a valid surrogate pair. -/
def decodeRune (r1 r2 : Nat) : Option Char :=
  if 0xD800 ≤ r1 && r1 < 0xDC00 && 0xDC00 ≤ r2 && r2 < 0xE000 then
    some (Char.ofNat ((r1 - 0xD800) * 0x400 + (r2 - 0xDC00) + 0x10000))
  else none

/-- A string literal after its opening quote: the decoded text (collected in
`acc`, reversed) and the rest of the input after the closing quote. -/
def scanString : Nat → List Char → List Char → Option (String × List Char)
  | 0, _, _ => none
  | _ + 1, _, [] => none
  | n + 1, acc, c :: rest =>
    if c = '"' then some (String.mk acc.reverse, rest)
    else if c = '\\' then
      match rest with
      | [] => none
      | e :: r =>
        if e = '"' then scanString n ('"' :: acc) r
        else if e = '\\' then scanString n ('\\' :: acc) r
        else if e = '/' then scanString n ('/' :: acc) r
        else if e = 'b' then scanString n (Char.ofNat 8 :: acc) r
        else if e = 'f' then scanString n (Char.ofNat 12 :: acc) r
        else if e = 'n' then scanString n ('\n' :: acc) r
        else if e = 'r' then scanString n ('\r' :: acc) r
        else if e = 't' then scanString n ('\t' :: acc) r
        else if e = 'u' then
          match getu4 r with
          | none => none
          | some (u, r1) =>
            if isSurrogate u then
              match r1 with
              | '\\' :: 'u' :: r2 =>
                match getu4 r2 with
                | none => none
                | some (u2, r3) =>
                  match decodeRune u u2 with
                  | some ch => scanString n (ch :: acc) r3
                  | none => scanString n (replacementChar :: acc) r1
              | _ => scanString n (replacementChar :: acc) r1
            else scanString n (Char.ofNat u :: acc) r1
        else none
    else if c.toNat < 0x20 then none
    else scanString n (c :: acc) rest

/-- A decimal digit. -/
def isDigit (c : Char) : Bool := '0' ≤ c && c ≤ '9'

/-- The longest prefix of decimal digits, and the rest. -/
def digits : List Char → List Char × List Char
  | [] => ([], [])
  | c :: cs => if isDigit c then ((digits cs).1.cons c, (digits cs).2) else ([], c :: cs)

/-- The number written by a list of decimal digits. -/
def digitsVal (ds : List Char) : Nat := ds.foldl (fun a c => 10 * a + (c.toNat - '0'.toNat)) 0

/-- The least magnitude that does not round to a finite float64:
`2 ^ 1024 - 2 ^ 970`. -/
def float64Limit : Nat :=
  179769313486231580793728971405303415079934132710037826936173778980444968292764750946649017977587207096330286416692887910946555547851940402630657488671505820681908902000708383676273854845817711531764475730270069855571366959622842914819860834936475292719074168444365510704342711559699508093042880177904174497792

/-- Whether the number with the digits `mant`, of which the last `fracLen`
follow the decimal point, and the exponent `exp` (negative when `expNeg`)
has a magnitude below `float64Limit`. -/
def inRange (mant : List Char) (fracLen : Nat) (expNeg : Bool) (exp : List Char) : Bool :=
  let d := digitsVal mant
  let e := digitsVal exp
  if d = 0 then true
  else if expNeg then decide (d < float64Limit * 10 ^ (e + fracLen))
  else if e ≤ fracLen then decide (d < float64Limit * 10 ^ (fracLen - e))
  else decide (d * 10 ^ (e - fracLen) < float64Limit)

/-- A number literal at the head of the input: the literal, whether it is in
the float64 range, and the rest. -/
def scanNumber (cs : List Char) : Option (List Char × Bool × List Char) :=
  let (sign, cs1) := match cs with
    | '-' :: r => (['-'], r)
    | _ => ([], cs)
  let intPart : Option (List Char × List Char) := match cs1 with
    | [] => none
    | c :: r =>
      if c = '0' then some (['0'], r)
      else if isDigit c then some (c :: (digits r).1, (digits r).2)
      else none
  match intPart with
  | none => none
  | some (ip, cs2) =>
    let fracPart : Option (List Char × List Char) := match cs2 with
      | '.' :: r => if (digits r).1.isEmpty then none else some ((digits r).1, (digits r).2)
      | _ => some ([], cs2)
    match fracPart with
    | none => none
    | some (fp, cs3) =>
      let dot : List Char := if fp.isEmpty then [] else ['.']
      let expPart : Option (List Char × Bool × List Char × List Char) := match cs3 with
        | [] => some ([], false, [], cs3)
        | c :: r =>
          if c = 'e' || c = 'E' then
            let (sg, neg, r1) : List Char × Bool × List Char := match r with
              | '+' :: r1 => (['+'], false, r1)
              | '-' :: r1 => (['-'], true, r1)
              | _ => ([], false, r)
            if (digits r1).1.isEmpty then none
            else some (c :: sg ++ (digits r1).1, neg, (digits r1).1, (digits r1).2)
          else some ([], false, [], cs3)
      match expPart with
      | none => none
      | some (ep, neg, ed, cs4) =>
        some (sign ++ ip ++ dot ++ fp ++ ep, inRange (ip ++ fp) fp.length neg ed, cs4)

/-- Go `m[k] = v` on the entries of a map under construction. -/
def objSet : List (String × Any) → String → Any → List (String × Any)
  | [], k, v => [(k, v)]
  | (k1, v1) :: rest, k, v => if k1 = k then (k, v) :: rest else (k1, v1) :: objSet rest k v

mutual
/-- One JSON value at the head of the input (no leading space): the decoded
value, whether every number in it is in range, and the rest. -/
def parseValue : Nat → List Char → Option (Any × Bool × List Char)
  | 0, _ => none
  | _ + 1, [] => none
  | n + 1, c :: r =>
    if c = '{' then
      match parseMembers n (skipSpace r) with
      | none => none
      | some (kvs, r1) =>
        some (Any.obj (kvs.foldl (fun m e => objSet m e.1 e.2.1) []), kvs.all (fun e => e.2.2), r1)
    else if c = '[' then
      match parseElements n (skipSpace r) with
      | none => none
      | some (xs, ok, r1) => some (Any.arr xs, ok, r1)
    else if c = '"' then
      match scanString (n + 1) [] r with
      | none => none
      | some (s, r1) => some (Any.str s, true, r1)
    else
      match c :: r with
      | 't' :: 'r' :: 'u' :: 'e' :: r1 => some (Any.bool true, true, r1)
      | 'f' :: 'a' :: 'l' :: 's' :: 'e' :: r1 => some (Any.bool false, true, r1)
      | 'n' :: 'u' :: 'l' :: 'l' :: r1 => some (Any.null, true, r1)
      | cs =>
        match scanNumber cs with
        | none => none
        | some (lit, ok, r1) => some (Any.num (String.mk lit), ok, r1)
/-- The members of an object after `{` and space, up to and including `}`,
in the order of the text, duplicate keys kept, each with the range flag of
its value. -/
def parseMembers : Nat → List Char → Option (List (String × Any × Bool) × List Char)
  | 0, _ => none
  | n + 1, cs =>
    match cs with
    | '}' :: r => some ([], r)
    | _ => parseMembersLoop n cs
/-- The members of a non-empty object, from the first key on. -/
def parseMembersLoop : Nat → List Char → Option (List (String × Any × Bool) × List Char)
  | 0, _ => none
  | n + 1, cs =>
    match cs with
    | '"' :: r =>
      match scanString (n + 1) [] r with
      | none => none
      | some (k, r1) =>
        match skipSpace r1 with
        | ':' :: r2 =>
          match parseValue n (skipSpace r2) with
          | none => none
          | some (v, ok, r3) =>
            match skipSpace r3 with
            | ',' :: r4 =>
              match parseMembersLoop n (skipSpace r4) with
              | none => none
              | some (kvs, r5) => some ((k, v, ok) :: kvs, r5)
            | '}' :: r4 => some ([(k, v, ok)], r4)
            | _ => none
        | _ => none
    | _ => none
/-- The elements of an array after `[` and space, up to and including `]`. -/
def parseElements : Nat → List Char → Option (List Any × Bool × List Char)
  | 0, _ => none
  | n + 1, cs =>
    match cs with
    | ']' :: r => some ([], true, r)
    | _ => parseElementsLoop n cs
/-- The elements of a non-empty array, from the first one on. -/
def parseElementsLoop : Nat → List Char → Option (List Any × Bool × List Char)
  | 0, _ => none
  | n + 1, cs =>
    match parseValue n cs with
    | none => none
    | some (v, ok, r1) =>
      match skipSpace r1 with
      | ',' :: r2 =>
        match parseElementsLoop n (skipSpace r2) with
        | none => none
        | some (xs, ok1, r3) => some (v :: xs, ok && ok1, r3)
      | ']' :: r2 => some ([v], ok, r2)
      | _ => none
end

/-- ASCII case folding of a key, as the decoder matches field names. -/
def fold (k : String) : String := String.mk (k.data.map Char.toLower)

/-- One member of the top-level object stored into the struct: the fields and
whether no type error was recorded so far. -/
def storeMember (st : legacyData.ComplexObject × Bool) (m : String × Any × Bool) : legacyData.ComplexObject × Bool :=
  if fold m.1 = "metadata" then
    match m.2.1 with
    | Any.str s => ({ st.1 with Metadata := s }, st.2)
    | Any.null => st
    | _ => (st.1, false)
  else if fold m.1 = "value" then ({ st.1 with Value := m.2.1 }, st.2 && m.2.2)
  else st

/-- Model of `json.Unmarshal([]byte(t), complexObject)` on a fresh
`legacyData.ComplexObject`: the filled struct, or `none` when an error is
returned. -/
def unmarshal (t : String) : Option legacyData.ComplexObject :=
  let zero : legacyData.ComplexObject := { Metadata := "", Value := Any.null }
  let fuel := t.length + 1
  match skipSpace t.data with
  | '{' :: r =>
    match parseMembers fuel (skipSpace r) with
    | none => none
    | some (kvs, r1) =>
      if (skipSpace r1).isEmpty then
        let st := kvs.foldl storeMember (zero, true)
        if st.2 then some st.1 else none
      else none
  | cs =>
    match parseValue fuel cs with
    | some (Any.null, _, r1) => if (skipSpace r1).isEmpty then some zero else none
    | _ => none

end Json

/-! ## Documents

The legacy structures (`legacyDef`, package `flogo-contrib/action/flow/definition`)
and the current ones (`definition`, `activity`, `metadata`), with the fields
the converter reads or writes. The types of a legacy attribute (`A`), of a
converted attribute (`T`), of a legacy mapping definition (`M`) and of the
old root task (`R`) are declared outside `flow.go` and stay abstract. -/

/-- A Go `error`, by its message. -/
abbrev GoError : Type := String

/-- `legacyDef.Mappings`. -/
structure legacyDef.Mappings (M : Type) where
  Input : List M
  Output : List M

/-- `legacyDef.ActivityConfigRep`. -/
structure legacyDef.ActivityConfigRep (M : Type) where
  Ref : String
  Mappings : Option (legacyDef.Mappings M)
  Settings : ValueMap
  InputAttrs : ValueMap
  OutputAttrs : ValueMap

/-- `legacyDef.TaskRep`. -/
structure legacyDef.TaskRep (M : Type) where
  ID : String
  Type_ : String
  Name : String
  Settings : ValueMap
  ActivityCfgRep : Option (legacyDef.ActivityConfigRep M)

/-- `legacyDef.LinkRep`. -/
structure legacyDef.LinkRep where
  Type_ : String
  Name : String
  ToID : String
  FromID : String
  Value : String
deriving DecidableEq

/-- `legacyDef.ErrorHandlerRep`. -/
structure legacyDef.ErrorHandlerRep (M : Type) where
  Tasks : List (legacyDef.TaskRep M)
  Links : List legacyDef.LinkRep

/-- The legacy `data.IOMetadata`. -/
structure legacyData.IOMetadata (A : Type) where
  Input : GoMap A
  Output : GoMap A

/-- `legacyDef.DefinitionRep`. -/
structure legacyDef.DefinitionRep (A M R : Type) where
  ExplicitReply : Bool
  Name : String
  ModelID : String
  Metadata : Option (legacyData.IOMetadata A)
  Tasks : List (legacyDef.TaskRep M)
  Links : List legacyDef.LinkRep
  ErrorHandler : Option (legacyDef.ErrorHandlerRep M)
  RootTask : Option R

/-- `activity.SchemaConfig`. -/
structure activity.SchemaConfig where
  Input : Option SchemaMap
  Output : Option SchemaMap

/-- `activity.Config`. -/
structure activity.Config where
  Ref : String
  Settings : ValueMap
  Input : Option ValueMap
  Output : Option ValueMap
  Schemas : Option activity.SchemaConfig

/-- `definition.TaskRep`. -/
structure definition.TaskRep where
  ID : String
  Type_ : String
  Name : String
  Settings : ValueMap
  ActivityCfgRep : Option activity.Config

/-- `definition.LinkRep`. -/
structure definition.LinkRep where
  Type_ : String
  Name : String
  ToID : String
  FromID : String
  Value : String
deriving DecidableEq

/-- `definition.ErrorHandlerRep`. -/
structure definition.ErrorHandlerRep where
  Tasks : List definition.TaskRep
  Links : List definition.LinkRep

/-- `metadata.IOMetadata`. -/
structure metadata.IOMetadata (T : Type) where
  Input : Option (GoMap T)
  Output : Option (GoMap T)

/-- `definition.DefinitionRep`. -/
structure definition.DefinitionRep (T : Type) where
  ExplicitReply : Bool
  Name : String
  ModelID : String
  Metadata : Option (metadata.IOMetadata T)
  Tasks : List definition.TaskRep
  Links : List definition.LinkRep
  ErrorHandler : Option definition.ErrorHandlerRep

/-- The functions called by `flow.go` and defined outside it. -/
structure Collab (A T M : Type) where
  /-- `json.Unmarshal([]byte(t), complexObject)` on a fresh
  `legacyData.ComplexObject`: the filled struct, or `none` for an error. -/
  unmarshal : String → Option legacyData.ComplexObject
  /-- `config.ConvertLegacyAttr`. -/
  ConvertLegacyAttr : A → Except GoError T
  /-- `config.ConvertLegacyMappings` on the input and output definitions of a
  `legacyData.IOMappings`, with the resolver `definition.GetDataResolver()`:
  the input and output mapping entries, or the error. -/
  ConvertLegacyMappings : List M → List M → Except GoError (ValueMap × ValueMap)

/-- Go `m[k]` read through a field that may be unset. -/
def GoMap.getOpt {α : Type} (m : Option (GoMap α)) (k : String) : Option α :=
  match m with
  | none => none
  | some m => m.get k

/-! ## The converter -/

/-- `getComplexObjectInfo` of `flow.go`; `unmarshal t` is
`json.Unmarshal([]byte(t), complexObject)` on a fresh `ComplexObject`, `none`
for a non-nil error. -/
def getComplexObjectInfo (unmarshal : String → Option legacyData.ComplexObject) (val : Any) :
    Any × String × Bool :=
  match val with
  | Any.str t =>
    if t = "" then (Any.null, "", false)
    else
      match unmarshal t with
      | none => (Any.null, "", false)
      | some complexObject => (complexObject.Value, complexObject.Metadata, true)
  | Any.obj t =>
    let (v, hasVal) := index t "value"
    let (mdI, hasMd) := index t "metadata"
    let md := ""
    let (md, hasMd) := if hasMd then assertString mdI else (md, hasMd)
    if hasVal || hasMd then (v, md, true)
    else (Any.null, "", false)
  | Any.complex metadata value => (value, metadata, true)
  | _ => (Any.null, "", false)

/-- One iteration of the loop of `convertValues`, on the entry `name, value`. -/
def convertValuesStep (unmarshal : String → Option legacyData.ComplexObject)
    (acc : ValueMap × SchemaMap) (name : String) (value : Any) : ValueMap × SchemaMap :=
  let (newVals, newSchemas) := acc
  let newVals := newVals.set name value
  if value.notNil then
    let (v, s, ok) := getComplexObjectInfo unmarshal value
    if ok then
      let newVals :=
        if !(v.eqStr "") && !(v.eqStr "{}") then newVals.set name v
        else newVals.delete name
      let newSchemas :=
        if s ≠ "" then newSchemas.set name { Type_ := "json", Value := s }
        else newSchemas
      (newVals, newSchemas)
    else (newVals, newSchemas)
  else (newVals, newSchemas)

/-- `convertValues` of `flow.go`. -/
def convertValues (unmarshal : String → Option legacyData.ComplexObject) (oldValues : ValueMap) :
    ValueMap × SchemaMap :=
  let newVals : ValueMap := ∅
  let newSchemas : SchemaMap := ∅
  if oldValues.len > 0 then
    oldValues.entries.foldl
      (fun acc e => convertValuesStep unmarshal acc e.1 e.2) (newVals, newSchemas)
  else (newVals, newSchemas)
/-- `createActivityConfig` of `flow.go`. -/
def createActivityConfig {A T M : Type} (c : Collab A T M)
    (rep : legacyDef.ActivityConfigRep M) : Except GoError activity.Config :=
  let settings := (convertValues c.unmarshal rep.Settings).1
  let (input, inputSchemas) := convertValues c.unmarshal rep.InputAttrs
  let (output, outputSchemas) := convertValues c.unmarshal rep.OutputAttrs
  let merged : Except GoError (ValueMap × ValueMap) :=
    match rep.Mappings with
    | none => Except.ok (input, output)
    | some mappings =>
      match c.ConvertLegacyMappings mappings.Input mappings.Output with
      | Except.error err => Except.error err
      | Except.ok (inputMappings, outputMappings) =>
        let input := if inputMappings.len > 0 then input.assignAll inputMappings else input
        let output := if outputMappings.len > 0 then output.assignAll outputMappings else output
        Except.ok (input, output)
  match merged with
  | Except.error err => Except.error err
  | Except.ok (input, output) =>
    Except.ok
      { Ref := rep.Ref
        Settings := if settings.len > 0 then input else rep.Settings
        Input := if input.len > 0 then some input else none
        Output := if output.len > 0 then some output else none
        Schemas :=
          if inputSchemas.len > 0 ∨ outputSchemas.len > 0 then
            some
              { Input := if inputSchemas.len > 0 then some inputSchemas else none
                Output := if outputSchemas.len > 0 then some outputSchemas else none }
          else none }

/-- `createLink` of `flow.go`. -/
def createLink (linkRep : legacyDef.LinkRep) : definition.LinkRep :=
  { Name := linkRep.Name
    Value := linkRep.Value
    Type_ := linkRep.Type_
    ToID := linkRep.ToID
    FromID := linkRep.FromID }

/-- `createTask` of `flow.go`. -/
def createTask {A T M : Type} (c : Collab A T M) (rep : legacyDef.TaskRep M) :
    Except GoError definition.TaskRep :=
  match rep.ActivityCfgRep with
  | some activityCfgRep =>
    match createActivityConfig c activityCfgRep with
    | Except.error err => Except.error err
    | Except.ok actCfg =>
      Except.ok
        { ID := rep.ID, Name := rep.Name, Settings := rep.Settings, Type_ := rep.Type_
          ActivityCfgRep := some actCfg }
  | none =>
    Except.ok
      { ID := rep.ID, Name := rep.Name, Settings := rep.Settings, Type_ := rep.Type_
        ActivityCfgRep := none }

/-- The loop `for name, attr := range attrs` of `convertLegacyFlow`, which
converts each attribute and stores it under its name, and returns at the
first error. -/
def convertAttrs {A T : Type} (conv : A → Except GoError T) :
    List (Sigma fun _ : String => A) → GoMap T → Except GoError (GoMap T)
  | [], acc => Except.ok acc
  | e :: rest, acc =>
    match conv e.2 with
    | Except.error err => Except.error err
    | Except.ok newAttr => convertAttrs conv rest (acc.set e.1 newAttr)

/-- The loop `for _, taskRep := range tasks` of `convertLegacyFlow`, which
appends each converted task and returns at the first error. -/
def createTasks {A T M : Type} (c : Collab A T M) :
    List (legacyDef.TaskRep M) → List definition.TaskRep → Except GoError (List definition.TaskRep)
  | [], acc => Except.ok acc
  | taskRep :: rest, acc =>
    match createTask c taskRep with
    | Except.error err => Except.error err
    | Except.ok task => createTasks c rest (acc ++ [task])

/-- The loop `for _, linkRep := range links` of `convertLegacyFlow`. -/
def createLinks : List legacyDef.LinkRep → List definition.LinkRep → List definition.LinkRep
  | [], acc => acc
  | linkRep :: rest, acc => createLinks rest (acc ++ [createLink linkRep])

/-- The metadata block of `convertLegacyFlow`. -/
def convertMetadata {A T : Type} (conv : A → Except GoError T)
    (md : Option (legacyData.IOMetadata A)) : Except GoError (Option (metadata.IOMetadata T)) :=
  match md with
  | none => Except.ok none
  | some md =>
    let input : Except GoError (Option (GoMap T)) :=
      if md.Input.len > 0 then
        match convertAttrs conv md.Input.entries ∅ with
        | Except.error err => Except.error err
        | Except.ok m => Except.ok (some m)
      else Except.ok none
    match input with
    | Except.error err => Except.error err
    | Except.ok input =>
      let output : Except GoError (Option (GoMap T)) :=
        if md.Output.len > 0 then
          match convertAttrs conv md.Output.entries ∅ with
          | Except.error err => Except.error err
          | Except.ok m => Except.ok (some m)
        else Except.ok none
      match output with
      | Except.error err => Except.error err
      | Except.ok output => Except.ok (some { Input := input, Output := output })

/-- The error-handler block of `convertLegacyFlow`. -/
def convertErrorHandler {A T M : Type} (c : Collab A T M)
    (eh : Option (legacyDef.ErrorHandlerRep M)) :
    Except GoError (Option definition.ErrorHandlerRep) :=
  match eh with
  | none => Except.ok none
  | some eh =>
    let tasks : Except GoError (List definition.TaskRep) :=
      if eh.Tasks.length ≠ 0 then createTasks c eh.Tasks [] else Except.ok []
    match tasks with
    | Except.error err => Except.error err
    | Except.ok tasks =>
      let links := if eh.Links.length ≠ 0 then createLinks eh.Links [] else []
      Except.ok (some { Tasks := tasks, Links := links })

/-- `convertLegacyFlow` of `flow.go`. -/
def convertLegacyFlow {A T M R : Type} (c : Collab A T M)
    (rep : legacyDef.DefinitionRep A M R) : Except GoError (definition.DefinitionRep T) :=
  if rep.RootTask.isSome then
    Except.error "definition too old to be automatically converted"
  else
    match convertMetadata c.ConvertLegacyAttr rep.Metadata with
    | Except.error err => Except.error err
    | Except.ok md =>
      let tasks : Except GoError (List definition.TaskRep) :=
        if rep.Tasks.length ≠ 0 then createTasks c rep.Tasks [] else Except.ok []
      match tasks with
      | Except.error err => Except.error err
      | Except.ok tasks =>
        let links := if rep.Links.length ≠ 0 then createLinks rep.Links [] else []
        match convertErrorHandler c rep.ErrorHandler with
        | Except.error err => Except.error err
        | Except.ok errorHandler =>
          Except.ok
            { Name := rep.Name
              ModelID := rep.ModelID
              ExplicitReply := rep.ExplicitReply
              Metadata := md
              Tasks := tasks
              Links := links
              ErrorHandler := errorHandler }


/-! ## Per-entry outcome of the value-set converter -/

/-- What `convertValues` leaves in the cleaned mapping for an entry with the
given value: what the loop body does to `newVals[name]`. -/
def cleanedEntry (u : String → Option legacyData.ComplexObject) (value : Any) : Option Any :=
  if value.notNil then
    if (getComplexObjectInfo u value).2.2 then
      if !((getComplexObjectInfo u value).1.eqStr "") && !((getComplexObjectInfo u value).1.eqStr "{}")
      then some (getComplexObjectInfo u value).1
      else none
    else some value
  else some value

/-- What `convertValues` puts in the schema mapping for an entry with the
given value. -/
def schemaEntry (u : String → Option legacyData.ComplexObject) (value : Any) : Option schema.Def :=
  if value.notNil then
    if (getComplexObjectInfo u value).2.2 then
      if (getComplexObjectInfo u value).2.1 ≠ "" then
        some { Type_ := "json", Value := (getComplexObjectInfo u value).2.1 }
      else none
    else none
  else none

/-! ## Sample collaborators and documents -/

/-- A sample attribute converter: it rejects the attribute `0`. -/
def sampleConvertAttr (a : Nat) : Except GoError Nat :=
  if a = 0 then Except.error "unsupported type" else Except.ok a

/-- A sample conversion of one list of mapping definitions, each a name with
a value: it rejects an empty name. -/
def sampleConvertMappingList : List (String × Any) → ValueMap → Except GoError ValueMap
  | [], acc => Except.ok acc
  | d :: rest, acc =>
    if d.1 = "" then Except.error "invalid mapping"
    else sampleConvertMappingList rest (acc.set d.1 d.2)

/-- A sample mapping converter. -/
def sampleConvertMappings (input output : List (String × Any)) :
    Except GoError (ValueMap × ValueMap) :=
  match sampleConvertMappingList input ∅ with
  | Except.error err => Except.error err
  | Except.ok im =>
    match sampleConvertMappingList output ∅ with
    | Except.error err => Except.error err
    | Except.ok om => Except.ok (im, om)

/-- Sample collaborators, with the decoder model. -/
def sampleCollab : Collab Nat Nat (String × Any) :=
  { unmarshal := Json.unmarshal
    ConvertLegacyAttr := sampleConvertAttr
    ConvertLegacyMappings := sampleConvertMappings }

/-- The text of the `payload` input of the end-to-end scenario,
`{"value":{"a":1},"metadata":"{type:object}"}`. -/
def payloadText : String :=
  "\x7b\"value\":\x7b\"a\":1\x7d,\"metadata\":\"\x7btype:object\x7d\"\x7d"

/-- The text `{"value":"{}","metadata":"S"}`. -/
def emptyMarkerText : String := "\x7b\"value\":\"\x7b\x7d\",\"metadata\":\"S\"\x7d"

/-- The text `{"value":"","metadata":"S"}`. -/
def emptyValueText : String := "\x7b\"value\":\"\",\"metadata\":\"S\"\x7d"

/-- The text `{"a":1}`, a JSON object with neither of the two fields. -/
def plainObjectText : String := "\x7b\"a\":1\x7d"

/-- A legacy activity configuration with the given parts and a fixed reference. -/
def sampleActivity (mappings : Option (legacyDef.Mappings (String × Any)))
    (settings input output : ValueMap) : legacyDef.ActivityConfigRep (String × Any) :=
  { Ref := "github.com/TIBCOSoftware/flogo-contrib/activity/log"
    Mappings := mappings, Settings := settings, InputAttrs := input, OutputAttrs := output }

/-- A legacy activity configuration whose input data-mapping the sample
mapping converter rejects. -/
def failingActivity : legacyDef.ActivityConfigRep (String × Any) :=
  sampleActivity (some { Input := [("", Any.str "$flow.msg")], Output := [] }) ∅ ∅ ∅

/-- A legacy task around an activity configuration. -/
def sampleTask (id : String) (act : Option (legacyDef.ActivityConfigRep (String × Any))) :
    legacyDef.TaskRep (String × Any) :=
  { ID := id, Type_ := "1", Name := "task " ++ id, Settings := ∅, ActivityCfgRep := act }

/-- A legacy definition with the given task list and root task, nothing else. -/
def sampleDefinition (tasks : List (legacyDef.TaskRep (String × Any))) (root : Option Unit) :
    legacyDef.DefinitionRep Nat (String × Any) Unit :=
  { ExplicitReply := false, Name := "flow", ModelID := "", Metadata := none
    Tasks := tasks, Links := [], ErrorHandler := none, RootTask := root }

/-! ## Lemmas on the value-set converter -/

theorem convertValuesStep_lookup_ne (u : String → Option legacyData.ComplexObject)
    (acc : ValueMap × SchemaMap) (k name : String) (value : Any) (h : k ≠ name) :
    (convertValuesStep u acc name value).1.lookup k = acc.1.lookup k ∧
    (convertValuesStep u acc name value).2.lookup k = acc.2.lookup k := by
  obtain ⟨vals, schemas⟩ := acc
  rcases hinfo : getComplexObjectInfo u value with ⟨v, s, ok⟩
  unfold convertValuesStep
  simp only [hinfo, GoMap.set, GoMap.delete]
  split_ifs <;> simp [AList.lookup_insert_ne h, AList.lookup_erase_ne h]

theorem convertValuesStep_lookup_self (u : String → Option legacyData.ComplexObject)
    (acc : ValueMap × SchemaMap) (name : String) (value : Any) :
    (convertValuesStep u acc name value).1.lookup name = cleanedEntry u value ∧
    (convertValuesStep u acc name value).2.lookup name =
      (schemaEntry u value).orElse (fun _ => acc.2.lookup name) := by
  obtain ⟨vals, schemas⟩ := acc
  rcases hinfo : getComplexObjectInfo u value with ⟨v, s, ok⟩
  unfold convertValuesStep cleanedEntry schemaEntry
  simp only [hinfo, GoMap.set, GoMap.delete]
  split_ifs <;> simp_all [AList.lookup_insert, AList.lookup_erase]

theorem convertValues_foldl_lookup (u : String → Option legacyData.ComplexObject) :
    ∀ (l : List (Sigma fun _ : String => Any)), l.NodupKeys →
      ∀ (acc : ValueMap × SchemaMap) (k : String),
      (l.foldl (fun acc e => convertValuesStep u acc e.1 e.2) acc).1.lookup k =
        (match l.dlookup k with
          | some value => cleanedEntry u value
          | none => acc.1.lookup k) ∧
      (l.foldl (fun acc e => convertValuesStep u acc e.1 e.2) acc).2.lookup k =
        (match l.dlookup k with
          | some value => (schemaEntry u value).orElse (fun _ => acc.2.lookup k)
          | none => acc.2.lookup k) := by
  intro l
  induction l with
  | nil => intro _ acc k; simp
  | cons e rest ih =>
    intro hnd acc k
    obtain ⟨name, value⟩ := e
    obtain ⟨hnot, hrest⟩ := List.nodupKeys_cons.mp hnd
    have ih1 := ih hrest (convertValuesStep u acc name value) k
    by_cases hk : name = k
    · subst hk
      have hnone : rest.dlookup name = none := List.dlookup_eq_none.mpr hnot
      have hself := convertValuesStep_lookup_self u acc name value
      simp only [hnone] at ih1
      simp only [List.foldl_cons, List.dlookup_cons_eq]
      exact ⟨ih1.1.trans hself.1, ih1.2.trans hself.2⟩
    · have hne := convertValuesStep_lookup_ne u acc k name value (fun h => hk h.symm)
      have hd : List.dlookup k (⟨name, value⟩ :: rest) = List.dlookup k rest :=
        List.dlookup_cons_ne rest (⟨name, value⟩ : Sigma fun _ : String => Any)
          (fun h => hk h.symm)
      rw [hne.1, hne.2] at ih1
      simp only [List.foldl_cons, hd]
      exact ih1

/-- The cleaned mapping and the schema mapping of `convertValues`, key by key. -/
theorem convertValues_lookup (u : String → Option legacyData.ComplexObject) (m : ValueMap)
    (k : String) :
    (convertValues u m).1.lookup k = (m.lookup k).bind (cleanedEntry u) ∧
    (convertValues u m).2.lookup k = (m.lookup k).bind (schemaEntry u) := by
  unfold convertValues
  by_cases hlen : m.len > 0
  · simp only [hlen, if_true]
    have h := convertValues_foldl_lookup u m.entries m.nodupKeys (∅, ∅) k
    simp only [AList.lookup_empty] at h
    unfold AList.lookup
    cases hd : m.entries.dlookup k with
    | none => rw [hd] at h; simpa using h
    | some value => rw [hd] at h; simpa using h
  · have hnil : m.entries = [] := by
      unfold GoMap.len at hlen
      exact List.length_eq_zero.mp (by omega)
    simp [hlen, AList.lookup, hnil]


theorem eqStr_eq_true_iff (v : Any) (s : String) : v.eqStr s = true ↔ v = Any.str s := by
  cases v <;> simp [Any.eqStr]

theorem notNil_of_match (u : String → Option legacyData.ComplexObject) (value : Any)
    (h : (getComplexObjectInfo u value).2.2 = true) : value.notNil = true := by
  cases value <;> simp_all [getComplexObjectInfo, Any.notNil]

/-! ## The definition converter rejects the old shape -/

/-- C1: for every legacy definition whose `RootTask` is set, whatever its
other fields and whatever the collaborators, `convertLegacyFlow` returns the
failure "definition too old to be automatically converted" and no definition. -/
theorem convertLegacyFlow_rootTask_fails {A T M R : Type} (c : Collab A T M)
    (rep : legacyDef.DefinitionRep A M R) (hroot : rep.RootTask ≠ none) :
    convertLegacyFlow c rep =
      Except.error "definition too old to be automatically converted" := by
  unfold convertLegacyFlow
  have h : rep.RootTask.isSome = true := by
    cases hr : rep.RootTask with
    | none => exact absurd hr hroot
    | some r => rfl
  simp [h]

/-- Witness of C1: a definition with a root task, and otherwise a convertible
task list, is rejected. -/
theorem convertLegacyFlow_rootTask_fails_witness :
    (sampleDefinition [sampleTask "a" none] (some ())).RootTask ≠ none ∧
    convertLegacyFlow sampleCollab (sampleDefinition [sampleTask "a" none] (some ())) =
      Except.error "definition too old to be automatically converted" :=
  ⟨by simp [sampleDefinition],
   convertLegacyFlow_rootTask_fails sampleCollab
     (sampleDefinition [sampleTask "a" none] (some ())) (by simp [sampleDefinition])⟩

/-! ## The value-set converter -/

/-- C2, counterexample: the value `X` is the two-character text `{}` and the
schema text is `S`; in mapping form and in text form alike the name is absent
from the cleaned mapping, so it is not bound to `X`. -/
theorem convertValues_roundTrip_counterexample :
    Any.str "{}" ≠ Any.str "" ∧ "S" ≠ "" ∧
    (convertValues Json.unmarshal
      (AList.singleton "k" (Any.obj [("value", Any.str "{}"), ("metadata", Any.str "S")]))).1.lookup
        "k" ≠ some (Any.str "{}") ∧
    Json.unmarshal emptyMarkerText =
      some { Metadata := "S", Value := Any.str "{}" } ∧
    (convertValues Json.unmarshal
      (AList.singleton "k" (Any.str emptyMarkerText))).1.lookup
        "k" ≠ some (Any.str "{}") := by
  refine ⟨by simp, by decide, ?_, rfl, ?_⟩
  · have h : (convertValues Json.unmarshal
        (AList.singleton "k" (Any.obj [("value", Any.str "{}"), ("metadata", Any.str "S")]))).1.lookup
          "k" = none := rfl
    simp [h]
  · have h : (convertValues Json.unmarshal
        (AList.singleton "k" (Any.str emptyMarkerText))).1.lookup
          "k" = none := rfl
    simp [h]

/-- C2, amended: for every name, every value `X` other than the empty text
and the text `{}`, and every non-empty schema text `S`, an entry whose value
is a text that the decoder decodes to `{value: X, metadata: S}`, or a generic
mapping with `X` under `value` and the text `S` under `metadata`, yields a
cleaned mapping that binds the name to `X` and a schema mapping that binds
the name to the descriptor of kind `json` carrying `S`. -/
theorem convertValues_roundTrip (u : String → Option legacyData.ComplexObject) (m : ValueMap)
    (name : String) (X : Any) (S : String)
    (hX : X ≠ Any.str "") (hX2 : X ≠ Any.str "{}") (hS : S ≠ "")
    (hentry :
      (∃ t, t ≠ "" ∧ u t = some { Metadata := S, Value := X } ∧
        m.lookup name = some (Any.str t)) ∨
      (∃ kvs, kvs.lookup "value" = some X ∧ kvs.lookup "metadata" = some (Any.str S) ∧
        m.lookup name = some (Any.obj kvs))) :
    (convertValues u m).1.lookup name = some X ∧
    (convertValues u m).2.lookup name = some { Type_ := "json", Value := S } := by
  have hl := convertValues_lookup u m name
  have e1 : X.eqStr "" = false := by
    cases h : X.eqStr "" with
    | false => rfl
    | true => exact absurd ((eqStr_eq_true_iff X "").mp h) hX
  have e2 : X.eqStr "{}" = false := by
    cases h : X.eqStr "{}" with
    | false => rfl
    | true => exact absurd ((eqStr_eq_true_iff X "{}").mp h) hX2
  rcases hentry with ⟨t, ht, hdec, hm⟩ | ⟨kvs, hv, hmd, hm⟩
  · have hinfo : getComplexObjectInfo u (Any.str t) = (X, S, true) := by
      simp [getComplexObjectInfo, ht, hdec]
    rw [hm] at hl
    simpa [cleanedEntry, schemaEntry, hinfo, Any.notNil, e1, e2, hS] using hl
  · have hinfo : getComplexObjectInfo u (Any.obj kvs) = (X, S, true) := by
      simp [getComplexObjectInfo, index, hv, hmd, assertString]
    rw [hm] at hl
    simpa [cleanedEntry, schemaEntry, hinfo, Any.notNil, e1, e2, hS] using hl

/-- Witness of C2 (amended): the payload of the end-to-end scenario in text
form, and the same pair in mapping form. -/
theorem convertValues_roundTrip_witness :
    ((convertValues Json.unmarshal (AList.singleton "payload" (Any.str payloadText))).1.lookup
        "payload" = some (Any.obj [("a", Any.num "1")]) ∧
      (convertValues Json.unmarshal (AList.singleton "payload" (Any.str payloadText))).2.lookup
        "payload" = some { Type_ := "json", Value := "{type:object}" }) ∧
    ((convertValues Json.unmarshal (AList.singleton "payload"
        (Any.obj [("value", Any.num "7"), ("metadata", Any.str "{type:number}")]))).1.lookup
        "payload" = some (Any.num "7") ∧
      (convertValues Json.unmarshal (AList.singleton "payload"
        (Any.obj [("value", Any.num "7"), ("metadata", Any.str "{type:number}")]))).2.lookup
        "payload" = some { Type_ := "json", Value := "{type:number}" }) :=
  ⟨convertValues_roundTrip Json.unmarshal (AList.singleton "payload" (Any.str payloadText))
      "payload" (Any.obj [("a", Any.num "1")]) "{type:object}" (by simp) (by simp) (by decide)
      (Or.inl ⟨payloadText, by decide, rfl, rfl⟩),
   convertValues_roundTrip Json.unmarshal
      (AList.singleton "payload"
        (Any.obj [("value", Any.num "7"), ("metadata", Any.str "{type:number}")]))
      "payload" (Any.num "7") "{type:number}" (by simp) (by simp) (by decide)
      (Or.inr ⟨[("value", Any.num "7"), ("metadata", Any.str "{type:number}")], rfl, rfl, rfl⟩)⟩

/-- C3: an entry whose value is not a text, not a generic mapping that has a
`value` or a `metadata` key, and not a typed complex object (the null value
is such a value) is bound to the identical value in the cleaned mapping, and
the schema mapping has no entry for its name. -/
theorem convertValues_passThrough (u : String → Option legacyData.ComplexObject) (m : ValueMap)
    (name : String) (value : Any)
    (hentry : m.lookup name = some value)
    (hnotText : ∀ s, value ≠ Any.str s)
    (hnotMap : ∀ kvs, value = Any.obj kvs →
      kvs.lookup "value" = none ∧ kvs.lookup "metadata" = none)
    (hnotComplex : ∀ md v, value ≠ Any.complex md v) :
    (convertValues u m).1.lookup name = some value ∧
    (convertValues u m).2.lookup name = none := by
  have hl := convertValues_lookup u m name
  rw [hentry] at hl
  have hinfo : (getComplexObjectInfo u value).2.2 = false := by
    cases value with
    | str s => exact absurd rfl (hnotText s)
    | obj kvs =>
      obtain ⟨h1, h2⟩ := hnotMap kvs rfl
      simp [getComplexObjectInfo, index, h1, h2]
    | complex md v => exact absurd rfl (hnotComplex md v)
    | _ => simp [getComplexObjectInfo]
  simpa [cleanedEntry, schemaEntry, hinfo] using hl

/-- Witness of C3: a number, the null value and a mapping without the two
keys pass through unchanged. -/
theorem convertValues_passThrough_witness :
    ((convertValues Json.unmarshal
        ((AList.singleton "n" (Any.num "3")).insert "z" Any.null)).1.lookup "z" = some Any.null ∧
      (convertValues Json.unmarshal
        ((AList.singleton "n" (Any.num "3")).insert "z" Any.null)).2.lookup "z" = none) ∧
    ((convertValues Json.unmarshal
        (AList.singleton "o" (Any.obj [("a", Any.str "b")]))).1.lookup "o" =
          some (Any.obj [("a", Any.str "b")]) ∧
      (convertValues Json.unmarshal
        (AList.singleton "o" (Any.obj [("a", Any.str "b")]))).2.lookup "o" = none) :=
  ⟨convertValues_passThrough Json.unmarshal
      ((AList.singleton "n" (Any.num "3")).insert "z" Any.null) "z" Any.null rfl
      (by simp) (by simp) (by simp),
   convertValues_passThrough Json.unmarshal
      (AList.singleton "o" (Any.obj [("a", Any.str "b")])) "o" (Any.obj [("a", Any.str "b")]) rfl
      (by simp) (by intro kvs h; cases h; exact ⟨rfl, rfl⟩) (by simp)⟩

/-- C4: for an entry on which the inspector reports a match with unwrapped
value `v`, whatever the form of the entry (text, generic mapping or typed
complex object): when `v` is the empty text or the text `{}` the name is
absent from the cleaned mapping, and otherwise the cleaned mapping binds the
name to `v`. -/
theorem convertValues_emptiness (u : String → Option legacyData.ComplexObject) (m : ValueMap)
    (name : String) (value v : Any) (s : String)
    (hentry : m.lookup name = some value)
    (hmatch : getComplexObjectInfo u value = (v, s, true)) :
    ((v = Any.str "" ∨ v = Any.str "{}") → (convertValues u m).1.lookup name = none) ∧
    (¬ (v = Any.str "" ∨ v = Any.str "{}") → (convertValues u m).1.lookup name = some v) := by
  have hl := (convertValues_lookup u m name).1
  rw [hentry] at hl
  have hnn : value.notNil = true := notNil_of_match u value (by rw [hmatch])
  have hc : cleanedEntry u value =
      if !(v.eqStr "") && !(v.eqStr "{}") then some v else none := by
    simp [cleanedEntry, hnn, hmatch]
  rw [Option.some_bind, hc] at hl
  constructor
  · intro hv
    rcases hv with hv | hv
    · have : v.eqStr "" = true := (eqStr_eq_true_iff v "").mpr hv
      simpa [this] using hl
    · have : v.eqStr "{}" = true := (eqStr_eq_true_iff v "{}").mpr hv
      simpa [this] using hl
  · intro hv
    have e1 : v.eqStr "" = false := by
      cases h : v.eqStr "" with
      | false => rfl
      | true => exact absurd (Or.inl ((eqStr_eq_true_iff v "").mp h)) hv
    have e2 : v.eqStr "{}" = false := by
      cases h : v.eqStr "{}" with
      | false => rfl
      | true => exact absurd (Or.inr ((eqStr_eq_true_iff v "{}").mp h)) hv
    simpa [e1, e2] using hl

/-- Witness of C4: the empty text unwrapped from a text entry and the text
`{}` unwrapped from a mapping entry are both removed. -/
theorem convertValues_emptiness_witness :
    (convertValues Json.unmarshal
      (AList.singleton "t" (Any.str emptyValueText))).1.lookup "t" = none ∧
    (convertValues Json.unmarshal
      (AList.singleton "g" (Any.obj [("value", Any.str "{}")]))).1.lookup "g" = none ∧
    (convertValues Json.unmarshal
      (AList.singleton "g" (Any.obj [("value", Any.str "x")]))).1.lookup "g" =
        some (Any.str "x") :=
  ⟨(convertValues_emptiness Json.unmarshal
      (AList.singleton "t" (Any.str emptyValueText)) "t"
      (Any.str emptyValueText) (Any.str "") "S" rfl rfl).1 (Or.inl rfl),
   (convertValues_emptiness Json.unmarshal
      (AList.singleton "g" (Any.obj [("value", Any.str "{}")])) "g"
      (Any.obj [("value", Any.str "{}")]) (Any.str "{}") "" rfl rfl).1 (Or.inr rfl),
   (convertValues_emptiness Json.unmarshal
      (AList.singleton "g" (Any.obj [("value", Any.str "x")])) "g"
      (Any.obj [("value", Any.str "x")]) (Any.str "x") "" rfl rfl).2 (by simp)⟩

/-! ## The activity-configuration converter -/

theorem foldl_set_lookup {α : Type} :
    ∀ (l : List (Sigma fun _ : String => α)), l.NodupKeys → ∀ (dst : GoMap α) (k : String),
      (l.foldl (fun acc e => GoMap.set acc e.1 e.2) dst).lookup k =
        (match l.dlookup k with
          | some v => some v
          | none => dst.lookup k) := by
  intro l
  induction l with
  | nil => intro _ dst k; simp
  | cons e rest ih =>
    intro hnd dst k
    obtain ⟨name, value⟩ := e
    obtain ⟨hnot, hrest⟩ := List.nodupKeys_cons.mp hnd
    have ih1 := ih hrest (GoMap.set dst name value) k
    by_cases hk : name = k
    · subst hk
      have hnone : rest.dlookup name = none := List.dlookup_eq_none.mpr hnot
      simp only [hnone] at ih1
      simp only [List.foldl_cons, List.dlookup_cons_eq]
      rw [ih1]
      simp [GoMap.set]
    · have hd : List.dlookup k (⟨name, value⟩ :: rest) = List.dlookup k rest :=
        List.dlookup_cons_ne rest (⟨name, value⟩ : Sigma fun _ : String => α)
          (fun h => hk h.symm)
      simp only [List.foldl_cons, hd]
      rw [ih1]
      simp [GoMap.set, AList.lookup_insert_ne (fun h => hk h.symm)]

/-- The map after `for k, v := range src { dst[k] = v }`, key by key. -/
theorem assignAll_lookup {α : Type} (dst src : GoMap α) (k : String) :
    (dst.assignAll src).lookup k =
      (match src.lookup k with
        | some v => some v
        | none => dst.lookup k) :=
  foldl_set_lookup src.entries src.nodupKeys dst k

theorem assignAll_of_len_eq_zero {α : Type} (dst src : GoMap α) (h : ¬ src.len > 0) :
    dst.assignAll src = dst := by
  have hnil : src.entries = [] := by
    unfold GoMap.len at h
    exact List.length_eq_zero.mp (by omega)
  simp [GoMap.assignAll, hnil]

theorem lookup_of_len_eq_zero {α : Type} (m : GoMap α) (h : ¬ m.len > 0) (k : String) :
    m.lookup k = none := by
  have hnil : m.entries = [] := by
    unfold GoMap.len at h
    exact List.length_eq_zero.mp (by omega)
  simp [AList.lookup, hnil]

theorem getOpt_guard {α : Type} (m : GoMap α) (k : String) :
    GoMap.getOpt (if m.len > 0 then some m else none) k = m.lookup k := by
  by_cases h : m.len > 0
  · simp [h, GoMap.getOpt, GoMap.get]
  · simp [h, GoMap.getOpt, lookup_of_len_eq_zero m h k]

/-- The result of `createActivityConfig` when the legacy configuration has no
data-mappings. -/
theorem createActivityConfig_noMappings {A T M : Type} (c : Collab A T M)
    (rep : legacyDef.ActivityConfigRep M) (hmap : rep.Mappings = none) :
    createActivityConfig c rep = Except.ok
      { Ref := rep.Ref
        Settings :=
          if (convertValues c.unmarshal rep.Settings).1.len > 0
          then (convertValues c.unmarshal rep.InputAttrs).1 else rep.Settings
        Input :=
          if (convertValues c.unmarshal rep.InputAttrs).1.len > 0
          then some (convertValues c.unmarshal rep.InputAttrs).1 else none
        Output :=
          if (convertValues c.unmarshal rep.OutputAttrs).1.len > 0
          then some (convertValues c.unmarshal rep.OutputAttrs).1 else none
        Schemas :=
          if (convertValues c.unmarshal rep.InputAttrs).2.len > 0 ∨
              (convertValues c.unmarshal rep.OutputAttrs).2.len > 0 then
            some
              { Input :=
                  if (convertValues c.unmarshal rep.InputAttrs).2.len > 0
                  then some (convertValues c.unmarshal rep.InputAttrs).2 else none
                Output :=
                  if (convertValues c.unmarshal rep.OutputAttrs).2.len > 0
                  then some (convertValues c.unmarshal rep.OutputAttrs).2 else none }
          else none } := by
  unfold createActivityConfig
  simp only [hmap]

/-- The result of `createActivityConfig` when the legacy configuration has
data-mappings and their conversion succeeds. -/
theorem createActivityConfig_mappings {A T M : Type} (c : Collab A T M)
    (rep : legacyDef.ActivityConfigRep M) (mp : legacyDef.Mappings M) (im om : ValueMap)
    (hmap : rep.Mappings = some mp)
    (hconv : c.ConvertLegacyMappings mp.Input mp.Output = Except.ok (im, om)) :
    createActivityConfig c rep = Except.ok
      { Ref := rep.Ref
        Settings :=
          if (convertValues c.unmarshal rep.Settings).1.len > 0
          then (convertValues c.unmarshal rep.InputAttrs).1.assignAll im else rep.Settings
        Input :=
          if ((convertValues c.unmarshal rep.InputAttrs).1.assignAll im).len > 0
          then some ((convertValues c.unmarshal rep.InputAttrs).1.assignAll im) else none
        Output :=
          if ((convertValues c.unmarshal rep.OutputAttrs).1.assignAll om).len > 0
          then some ((convertValues c.unmarshal rep.OutputAttrs).1.assignAll om) else none
        Schemas :=
          if (convertValues c.unmarshal rep.InputAttrs).2.len > 0 ∨
              (convertValues c.unmarshal rep.OutputAttrs).2.len > 0 then
            some
              { Input :=
                  if (convertValues c.unmarshal rep.InputAttrs).2.len > 0
                  then some (convertValues c.unmarshal rep.InputAttrs).2 else none
                Output :=
                  if (convertValues c.unmarshal rep.OutputAttrs).2.len > 0
                  then some (convertValues c.unmarshal rep.OutputAttrs).2 else none }
          else none } := by
  unfold createActivityConfig
  simp only [hmap, hconv]
  have hi : (if im.len > 0 then (convertValues c.unmarshal rep.InputAttrs).1.assignAll im
      else (convertValues c.unmarshal rep.InputAttrs).1) =
      (convertValues c.unmarshal rep.InputAttrs).1.assignAll im := by
    by_cases h : im.len > 0
    · simp [h]
    · simp [h, assignAll_of_len_eq_zero _ im h]
  have ho : (if om.len > 0 then (convertValues c.unmarshal rep.OutputAttrs).1.assignAll om
      else (convertValues c.unmarshal rep.OutputAttrs).1) =
      (convertValues c.unmarshal rep.OutputAttrs).1.assignAll om := by
    by_cases h : om.len > 0
    · simp [h]
    · simp [h, assignAll_of_len_eq_zero _ om h]
  rw [hi, ho]

/-- A failure of the mapping converter is the result of `createActivityConfig`. -/
theorem createActivityConfig_mappings_error {A T M : Type} (c : Collab A T M)
    (rep : legacyDef.ActivityConfigRep M) (mp : legacyDef.Mappings M) (err : GoError)
    (hmap : rep.Mappings = some mp)
    (hconv : c.ConvertLegacyMappings mp.Input mp.Output = Except.error err) :
    createActivityConfig c rep = Except.error err := by
  unfold createActivityConfig
  simp only [hmap, hconv]

/-- A successful `createActivityConfig` had no data-mappings to convert, or
converted them successfully. -/
theorem createActivityConfig_ok_cases {A T M : Type} (c : Collab A T M)
    (rep : legacyDef.ActivityConfigRep M) (cfg : activity.Config)
    (hok : createActivityConfig c rep = Except.ok cfg) :
    rep.Mappings = none ∨
    ∃ mp im om, rep.Mappings = some mp ∧
      c.ConvertLegacyMappings mp.Input mp.Output = Except.ok (im, om) := by
  cases hmap : rep.Mappings with
  | none => exact Or.inl rfl
  | some mp =>
    right
    cases hconv : c.ConvertLegacyMappings mp.Input mp.Output with
    | error err =>
      rw [createActivityConfig_mappings_error c rep mp err hmap hconv] at hok
      cases hok
    | ok r => exact ⟨mp, r.1, r.2, rfl, hconv⟩

/-- C5: when `convertValues` over the legacy settings yields at least one
entry, `createActivityConfig` succeeds whenever the mapping conversion, if
any, does, and the `Settings` of its result are the final converted input
mapping: the converted declared inputs, overridden by the mapping-derived
input entries when data-mappings are present. They are not the converted
settings mapping. -/
theorem createActivityConfig_settings_override {A T M : Type} (c : Collab A T M)
    (rep : legacyDef.ActivityConfigRep M)
    (hsettings : (convertValues c.unmarshal rep.Settings).1.len > 0) :
    (rep.Mappings = none →
      ∃ cfg, createActivityConfig c rep = Except.ok cfg ∧
        cfg.Settings = (convertValues c.unmarshal rep.InputAttrs).1) ∧
    (∀ mp im om, rep.Mappings = some mp →
      c.ConvertLegacyMappings mp.Input mp.Output = Except.ok (im, om) →
      ∃ cfg, createActivityConfig c rep = Except.ok cfg ∧
        cfg.Settings = (convertValues c.unmarshal rep.InputAttrs).1.assignAll im) := by
  constructor
  · intro hmap
    exact ⟨_, createActivityConfig_noMappings c rep hmap, by simp [hsettings]⟩
  · intro mp im om hmap hconv
    exact ⟨_, createActivityConfig_mappings c rep mp im om hmap hconv, by simp [hsettings]⟩

/-- Witness of C5: settings `{level: "info"}`, declared input
`{message: "hi"}` and an input data-mapping for `message`. The resulting
settings are the merged input mapping, which has `message` and no `level`,
while the converted settings mapping has `level`. -/
theorem createActivityConfig_settings_override_witness :
    (∃ cfg, createActivityConfig sampleCollab
        (sampleActivity (some { Input := [("message", Any.str "$flow.msg")], Output := [] })
          (AList.singleton "level" (Any.str "info"))
          (AList.singleton "message" (Any.str "hi")) ∅) = Except.ok cfg ∧
      cfg.Settings =
        (convertValues sampleCollab.unmarshal
          (AList.singleton "message" (Any.str "hi"))).1.assignAll
            (AList.singleton "message" (Any.str "$flow.msg"))) ∧
    ((convertValues sampleCollab.unmarshal
        (AList.singleton "message" (Any.str "hi"))).1.assignAll
          (AList.singleton "message" (Any.str "$flow.msg"))).lookup "message" =
      some (Any.str "$flow.msg") ∧
    ((convertValues sampleCollab.unmarshal
        (AList.singleton "message" (Any.str "hi"))).1.assignAll
          (AList.singleton "message" (Any.str "$flow.msg"))).lookup "level" = none ∧
    (convertValues sampleCollab.unmarshal
        (AList.singleton "level" (Any.str "info"))).1.lookup "level" = some (Any.str "info") :=
  ⟨(createActivityConfig_settings_override sampleCollab
      (sampleActivity (some { Input := [("message", Any.str "$flow.msg")], Output := [] })
        (AList.singleton "level" (Any.str "info"))
        (AList.singleton "message" (Any.str "hi")) ∅) (by decide)).2
      { Input := [("message", Any.str "$flow.msg")], Output := [] }
      (AList.singleton "message" (Any.str "$flow.msg")) ∅ rfl rfl,
   rfl, rfl, rfl⟩

/-- C6: when the legacy data-mappings are present and their conversion
succeeds, `createActivityConfig` succeeds and, key by key, the final input
(resp. output) mapping binds every mapping-derived key to the mapping-derived
entry, also when a declared input (resp. output) produced the same key, and
binds every other key as the converted declared inputs (resp. outputs) do. -/
theorem createActivityConfig_merge_precedence {A T M : Type} (c : Collab A T M)
    (rep : legacyDef.ActivityConfigRep M) (mp : legacyDef.Mappings M) (im om : ValueMap)
    (hmap : rep.Mappings = some mp)
    (hconv : c.ConvertLegacyMappings mp.Input mp.Output = Except.ok (im, om)) :
    ∃ cfg, createActivityConfig c rep = Except.ok cfg ∧
      ∀ k : String,
        GoMap.getOpt cfg.Input k =
          (match im.lookup k with
            | some v => some v
            | none => (convertValues c.unmarshal rep.InputAttrs).1.lookup k) ∧
        GoMap.getOpt cfg.Output k =
          (match om.lookup k with
            | some v => some v
            | none => (convertValues c.unmarshal rep.OutputAttrs).1.lookup k) := by
  refine ⟨_, createActivityConfig_mappings c rep mp im om hmap hconv, ?_⟩
  intro k
  rw [getOpt_guard, getOpt_guard, assignAll_lookup, assignAll_lookup]
  constructor
  · cases AList.lookup k im <;> rfl
  · cases AList.lookup k om <;> rfl

/-- Witness of C6: the declared inputs `{message: "hi", count: 2}` and an
input data-mapping for `message`: the final input binds `message` to the
mapping-derived entry and keeps `count`. -/
theorem createActivityConfig_merge_precedence_witness :
    ∃ cfg, createActivityConfig sampleCollab
        (sampleActivity (some { Input := [("message", Any.str "$flow.msg")], Output := [] }) ∅
          ((AList.singleton "message" (Any.str "hi")).insert "count" (Any.num "2")) ∅) =
        Except.ok cfg ∧
      GoMap.getOpt cfg.Input "message" = some (Any.str "$flow.msg") ∧
      GoMap.getOpt cfg.Input "count" = some (Any.num "2") ∧
      GoMap.getOpt cfg.Output "message" = none := by
  obtain ⟨cfg, hcfg, hk⟩ := createActivityConfig_merge_precedence sampleCollab
    (sampleActivity (some { Input := [("message", Any.str "$flow.msg")], Output := [] }) ∅
      ((AList.singleton "message" (Any.str "hi")).insert "count" (Any.num "2")) ∅)
    { Input := [("message", Any.str "$flow.msg")], Output := [] }
    (AList.singleton "message" (Any.str "$flow.msg")) ∅ rfl rfl
  exact ⟨cfg, hcfg, (hk "message").1.trans rfl, (hk "count").1.trans rfl,
    (hk "message").2.trans rfl⟩

/-! ## The definition converter on one task -/

/-- `convertValues` on a one-entry mapping whose text value decodes to a
non-empty value with a non-empty schema text. -/
theorem convertValues_singleton_text (u : String → Option legacyData.ComplexObject)
    (name t : String) (X : Any) (S : String) (ht : t ≠ "")
    (hdec : u t = some { Metadata := S, Value := X })
    (e1 : X.eqStr "" = false) (e2 : X.eqStr "{}" = false) (hS : S ≠ "") :
    convertValues u (AList.singleton name (Any.str t)) =
      (AList.singleton name X, AList.singleton name { Type_ := "json", Value := S }) := by
  have hinfo : getComplexObjectInfo u (Any.str t) = (X, S, true) := by
    simp [getComplexObjectInfo, ht, hdec]
  simp [convertValues, GoMap.len, convertValuesStep, hinfo, Any.notNil, e1, e2, hS, GoMap.set]

/-- The guard `len(tasks) != 0` around the task loop changes nothing. -/
theorem createTasks_guard {A T M : Type} (c : Collab A T M) (tasks : List (legacyDef.TaskRep M)) :
    (if tasks.length ≠ 0 then createTasks c tasks [] else Except.ok []) =
      createTasks c tasks [] := by
  cases tasks <;> simp [createTasks]

/-- The result of `convertLegacyFlow` when each of its parts converts. -/
theorem convertLegacyFlow_ok {A T M R : Type} (c : Collab A T M)
    (rep : legacyDef.DefinitionRep A M R) (md : Option (metadata.IOMetadata T))
    (tasks : List definition.TaskRep) (eh : Option definition.ErrorHandlerRep)
    (hroot : rep.RootTask = none)
    (hmeta : convertMetadata c.ConvertLegacyAttr rep.Metadata = Except.ok md)
    (htasks : createTasks c rep.Tasks [] = Except.ok tasks)
    (herr : convertErrorHandler c rep.ErrorHandler = Except.ok eh) :
    convertLegacyFlow c rep = Except.ok
      { Name := rep.Name, ModelID := rep.ModelID, ExplicitReply := rep.ExplicitReply
        Metadata := md, Tasks := tasks
        Links := if rep.Links.length ≠ 0 then createLinks rep.Links [] else []
        ErrorHandler := eh } := by
  unfold convertLegacyFlow
  simp only [hroot, Option.isSome_none, Bool.false_eq_true, if_false, hmeta]
  rw [createTasks_guard, htasks]
  simp only [herr]

/-- C7: a legacy definition without `RootTask` whose task list is one task
with an activity configuration that has
`InputAttrs = {"payload": "{\"value\":{\"a\":1},\"metadata\":\"{type:object}\"}"}`
and no mappings, and whose metadata and error handler (if any) convert,
converts successfully; the task's `ActivityConfig` has
`Input = {"payload": {"a":1}}` and `Schemas.Input = {"payload": {Type:"json",
Value:"{type:object}"}}`. The decoder is any one that decodes the payload text
as `encoding/json` does. -/
theorem convertLegacyFlow_payload_scenario {A T M R : Type} (c : Collab A T M)
    (rep : legacyDef.DefinitionRep A M R) (task : legacyDef.TaskRep M)
    (act : legacyDef.ActivityConfigRep M) (md : Option (metadata.IOMetadata T))
    (eh : Option definition.ErrorHandlerRep)
    (hdec : c.unmarshal payloadText =
      some { Metadata := "{type:object}", Value := Any.obj [("a", Any.num "1")] })
    (hroot : rep.RootTask = none)
    (hmeta : convertMetadata c.ConvertLegacyAttr rep.Metadata = Except.ok md)
    (herr : convertErrorHandler c rep.ErrorHandler = Except.ok eh)
    (htasks : rep.Tasks = [task]) (hact : task.ActivityCfgRep = some act)
    (hin : act.InputAttrs = AList.singleton "payload" (Any.str payloadText))
    (hmap : act.Mappings = none) :
    ∃ newDef newTask cfg schemas,
      convertLegacyFlow c rep = Except.ok newDef ∧
      newDef.Tasks = [newTask] ∧
      newTask.ActivityCfgRep = some cfg ∧
      cfg.Input = some (AList.singleton "payload" (Any.obj [("a", Any.num "1")])) ∧
      cfg.Schemas = some schemas ∧
      schemas.Input =
        some (AList.singleton "payload" { Type_ := "json", Value := "{type:object}" }) := by
  have hcv := convertValues_singleton_text c.unmarshal "payload" payloadText
    (Any.obj [("a", Any.num "1")]) "{type:object}" (by decide) hdec rfl rfl (by decide)
  obtain ⟨cfg, hcfg, hI, schemas, hS, hSI⟩ : ∃ cfg, createActivityConfig c act = Except.ok cfg ∧
      cfg.Input = some (AList.singleton "payload" (Any.obj [("a", Any.num "1")])) ∧
      ∃ schemas, cfg.Schemas = some schemas ∧ schemas.Input =
        some (AList.singleton "payload" { Type_ := "json", Value := "{type:object}" }) := by
    have h := createActivityConfig_noMappings c act hmap
    rw [hin, hcv] at h
    have hlen1 : GoMap.len (AList.singleton "payload" (Any.obj [("a", Any.num "1")]) :
        ValueMap) > 0 := by simp [GoMap.len]
    have hlen2 : GoMap.len (AList.singleton "payload"
        ({ Type_ := "json", Value := "{type:object}" } : schema.Def) : SchemaMap) > 0 := by
      simp [GoMap.len]
    simp only [hlen1, hlen2, if_true, true_or] at h
    exact ⟨_, h, rfl, _, rfl, rfl⟩
  have htask : createTask c task = Except.ok
      { ID := task.ID, Name := task.Name, Settings := task.Settings, Type_ := task.Type_
        ActivityCfgRep := some cfg } := by
    unfold createTask
    simp only [hact, hcfg]
  have hts : createTasks c rep.Tasks [] = Except.ok
      [{ ID := task.ID, Name := task.Name, Settings := task.Settings, Type_ := task.Type_
         ActivityCfgRep := some cfg }] := by
    rw [htasks]
    simp only [createTasks, htask, List.nil_append]
  exact ⟨_, _, cfg, schemas, convertLegacyFlow_ok c rep md _ eh hroot hmeta hts herr, rfl, rfl,
    hI, hS, hSI⟩

/-- Witness of C7: the scenario with the decoder model and nothing else in
the definition. -/
theorem convertLegacyFlow_payload_scenario_witness :
    ∃ newDef newTask cfg schemas,
      convertLegacyFlow sampleCollab
        (sampleDefinition
          [sampleTask "a" (some (sampleActivity none ∅
            (AList.singleton "payload" (Any.str payloadText)) ∅))] none) = Except.ok newDef ∧
      newDef.Tasks = [newTask] ∧
      newTask.ActivityCfgRep = some cfg ∧
      cfg.Input = some (AList.singleton "payload" (Any.obj [("a", Any.num "1")])) ∧
      cfg.Schemas = some schemas ∧
      schemas.Input =
        some (AList.singleton "payload" { Type_ := "json", Value := "{type:object}" }) :=
  convertLegacyFlow_payload_scenario sampleCollab
    (sampleDefinition
      [sampleTask "a" (some (sampleActivity none ∅
        (AList.singleton "payload" (Any.str payloadText)) ∅))] none)
    (sampleTask "a" (some (sampleActivity none ∅
        (AList.singleton "payload" (Any.str payloadText)) ∅)))
    (sampleActivity none ∅ (AList.singleton "payload" (Any.str payloadText)) ∅)
    none none rfl rfl rfl rfl rfl rfl rfl rfl

/-! ## The complex-value inspector -/

/-- C8, counterexample: on the generic mapping `{"metadata": 5}`, which has a
`metadata` key, no `value` key and a metadata entry that is not a string, the
inspector reports no match. -/
theorem getComplexObjectInfo_map_counterexample :
    List.lookup "metadata" [("metadata", Any.num "5")] = some (Any.num "5") ∧
    getComplexObjectInfo Json.unmarshal (Any.obj [("metadata", Any.num "5")]) =
      (Any.null, "", false) :=
  ⟨rfl, rfl⟩

/-- C8, amended: on a generic mapping the inspector reports a match exactly
when the mapping has a `value` key or a `metadata` key whose entry is a
string. On a match it returns the value under `value`, null when that key is
absent, and the metadata text, which is the empty text when the `metadata`
entry is absent or is not a string (this needs the `value` key). A mapping
with no `value` key whose `metadata` entry is absent or not a string is not a
match. -/
theorem getComplexObjectInfo_map (u : String → Option legacyData.ComplexObject)
    (kvs : List (String × Any)) :
    (∀ x s, kvs.lookup "value" = some x → kvs.lookup "metadata" = some (Any.str s) →
      getComplexObjectInfo u (Any.obj kvs) = (x, s, true)) ∧
    (∀ x, kvs.lookup "value" = some x → (∀ s, kvs.lookup "metadata" ≠ some (Any.str s)) →
      getComplexObjectInfo u (Any.obj kvs) = (x, "", true)) ∧
    (∀ s, kvs.lookup "value" = none → kvs.lookup "metadata" = some (Any.str s) →
      getComplexObjectInfo u (Any.obj kvs) = (Any.null, s, true)) ∧
    (kvs.lookup "value" = none → (∀ s, kvs.lookup "metadata" ≠ some (Any.str s)) →
      getComplexObjectInfo u (Any.obj kvs) = (Any.null, "", false)) := by
  refine ⟨?_, ?_, ?_, ?_⟩
  · intro x s hv hmd
    simp [getComplexObjectInfo, index, hv, hmd, assertString]
  · intro x hv hmd
    cases h : kvs.lookup "metadata" with
    | none => simp [getComplexObjectInfo, index, hv, h]
    | some mdI =>
      cases mdI with
      | str s => exact absurd h (hmd s)
      | _ => simp [getComplexObjectInfo, index, hv, h, assertString]
  · intro s hv hmd
    simp [getComplexObjectInfo, index, hv, hmd, assertString]
  · intro hv hmd
    cases h : kvs.lookup "metadata" with
    | none => simp [getComplexObjectInfo, index, hv, h]
    | some mdI =>
      cases mdI with
      | str s => exact absurd h (hmd s)
      | _ => simp [getComplexObjectInfo, index, hv, h, assertString]

/-- Witness of C8 (amended): a `value` key with a non-string `metadata`
entry is a match with an empty schema; a lone string `metadata` entry is a
match with a null value; a lone non-string `metadata` entry is no match. -/
theorem getComplexObjectInfo_map_witness :
    getComplexObjectInfo Json.unmarshal
        (Any.obj [("value", Any.num "1"), ("metadata", Any.num "5")]) =
      (Any.num "1", "", true) ∧
    getComplexObjectInfo Json.unmarshal (Any.obj [("metadata", Any.str "S")]) =
      (Any.null, "S", true) ∧
    getComplexObjectInfo Json.unmarshal (Any.obj [("metadata", Any.bool true)]) =
      (Any.null, "", false) :=
  ⟨(getComplexObjectInfo_map Json.unmarshal
      [("value", Any.num "1"), ("metadata", Any.num "5")]).2.1 (Any.num "1") rfl
      (by intro s h; cases h),
   (getComplexObjectInfo_map Json.unmarshal [("metadata", Any.str "S")]).2.2.1 "S" rfl rfl,
   (getComplexObjectInfo_map Json.unmarshal [("metadata", Any.bool true)]).2.2.2 rfl
      (by intro s h; cases h)⟩

/-- C9: for a text that is empty or on which the decoder fails, the inspector
reports no match, so `convertValues` binds the name to the unchanged text in
the cleaned mapping and creates no schema entry for it. -/
theorem convertValues_unparsed_text (u : String → Option legacyData.ComplexObject)
    (m : ValueMap) (name t : String)
    (hentry : m.lookup name = some (Any.str t))
    (hfail : t = "" ∨ u t = none) :
    getComplexObjectInfo u (Any.str t) = (Any.null, "", false) ∧
    (convertValues u m).1.lookup name = some (Any.str t) ∧
    (convertValues u m).2.lookup name = none := by
  have hinfo : getComplexObjectInfo u (Any.str t) = (Any.null, "", false) := by
    rcases hfail with h | h
    · simp [getComplexObjectInfo, h]
    · by_cases ht : t = ""
      · simp [getComplexObjectInfo, ht]
      · simp [getComplexObjectInfo, ht, h]
  have hl := convertValues_lookup u m name
  rw [hentry] at hl
  refine ⟨hinfo, ?_, ?_⟩
  · simpa [cleanedEntry, hinfo] using hl.1
  · simpa [schemaEntry, hinfo] using hl.2

/-- Witness of C9: the empty text and a text that is not JSON. -/
theorem convertValues_unparsed_text_witness :
    (getComplexObjectInfo Json.unmarshal (Any.str "") = (Any.null, "", false) ∧
      (convertValues Json.unmarshal
        ((AList.singleton "e" (Any.str "") : ValueMap).insert "p" (Any.str "not json"))).1.lookup "e" =
          some (Any.str "") ∧
      (convertValues Json.unmarshal
        ((AList.singleton "e" (Any.str "") : ValueMap).insert "p" (Any.str "not json"))).2.lookup "e" =
          none) ∧
    (getComplexObjectInfo Json.unmarshal (Any.str "not json") = (Any.null, "", false) ∧
      (convertValues Json.unmarshal
        ((AList.singleton "e" (Any.str "") : ValueMap).insert "p" (Any.str "not json"))).1.lookup "p" =
          some (Any.str "not json") ∧
      (convertValues Json.unmarshal
        ((AList.singleton "e" (Any.str "") : ValueMap).insert "p" (Any.str "not json"))).2.lookup "p" =
          none) :=
  ⟨convertValues_unparsed_text Json.unmarshal
      ((AList.singleton "e" (Any.str "") : ValueMap).insert "p" (Any.str "not json")) "e" "" rfl
      (Or.inl rfl),
   convertValues_unparsed_text Json.unmarshal
      ((AList.singleton "e" (Any.str "") : ValueMap).insert "p" (Any.str "not json")) "p" "not json" rfl
      (Or.inr rfl)⟩

/-- C10: a successful `createActivityConfig` attaches a `SchemaConfig` exactly
when the schema mapping inferred from the declared inputs or the one inferred
from the declared outputs is non-empty; its `Input` and `Output` are then
those schema mappings, an empty one being left unset. -/
theorem createActivityConfig_schemas {A T M : Type} (c : Collab A T M)
    (rep : legacyDef.ActivityConfigRep M) (cfg : activity.Config)
    (hok : createActivityConfig c rep = Except.ok cfg) :
    (cfg.Schemas ≠ none ↔
      ((convertValues c.unmarshal rep.InputAttrs).2.len > 0 ∨
        (convertValues c.unmarshal rep.OutputAttrs).2.len > 0)) ∧
    (∀ sc, cfg.Schemas = some sc →
      sc.Input =
        (if (convertValues c.unmarshal rep.InputAttrs).2.len > 0
          then some (convertValues c.unmarshal rep.InputAttrs).2 else none) ∧
      sc.Output =
        (if (convertValues c.unmarshal rep.OutputAttrs).2.len > 0
          then some (convertValues c.unmarshal rep.OutputAttrs).2 else none)) := by
  have hS : cfg.Schemas =
      (if (convertValues c.unmarshal rep.InputAttrs).2.len > 0 ∨
          (convertValues c.unmarshal rep.OutputAttrs).2.len > 0 then
        some
          { Input :=
              if (convertValues c.unmarshal rep.InputAttrs).2.len > 0
              then some (convertValues c.unmarshal rep.InputAttrs).2 else none
            Output :=
              if (convertValues c.unmarshal rep.OutputAttrs).2.len > 0
              then some (convertValues c.unmarshal rep.OutputAttrs).2 else none }
      else none) := by
    rcases createActivityConfig_ok_cases c rep cfg hok with hmap | ⟨mp, im, om, hmap, hconv⟩
    · rw [createActivityConfig_noMappings c rep hmap] at hok
      cases hok
      rfl
    · rw [createActivityConfig_mappings c rep mp im om hmap hconv] at hok
      cases hok
      rfl
  by_cases hne : (convertValues c.unmarshal rep.InputAttrs).2.len > 0 ∨
      (convertValues c.unmarshal rep.OutputAttrs).2.len > 0
  · rw [if_pos hne] at hS
    refine ⟨⟨fun _ => hne, fun _ => by simp [hS]⟩, ?_⟩
    intro sc hsc
    rw [hS] at hsc
    cases hsc
    exact ⟨rfl, rfl⟩
  · rw [if_neg hne] at hS
    refine ⟨⟨fun h => absurd hS h, fun h => absurd h hne⟩, ?_⟩
    intro sc hsc
    rw [hS] at hsc
    cases hsc

/-- Witness of C10: a declared input carrying a schema and no such output:
the `SchemaConfig` is attached, with `Input` set and `Output` unset. -/
theorem createActivityConfig_schemas_witness :
    ∃ cfg sc,
      createActivityConfig sampleCollab
        (sampleActivity none ∅ (AList.singleton "payload" (Any.str payloadText))
          (AList.singleton "code" (Any.num "200"))) = Except.ok cfg ∧
      cfg.Schemas = some sc ∧
      sc.Input = some (AList.singleton "payload" { Type_ := "json", Value := "{type:object}" }) ∧
      sc.Output = none := by
  obtain ⟨-, h⟩ := createActivityConfig_schemas sampleCollab
    (sampleActivity none ∅ (AList.singleton "payload" (Any.str payloadText))
      (AList.singleton "code" (Any.num "200"))) _ rfl
  exact ⟨_, _, rfl, rfl, (h _ rfl).1.trans rfl, (h _ rfl).2.trans rfl⟩

/-! ## Schema entries, and texts that decode to an empty object -/

theorem notNil_iff (value : Any) : value.notNil = true ↔ value ≠ Any.null := by
  cases value <;> simp [Any.notNil]

/-- C11: the schema mapping returned by `convertValues` binds a name to a
descriptor exactly when the mapping given binds the name to a non-null value
on which the inspector reports a match with a non-empty schema text `S`, and
the descriptor is then the one of kind `json` whose value is `S`. -/
theorem convertValues_schema_iff (u : String → Option legacyData.ComplexObject) (m : ValueMap)
    (name : String) (d : schema.Def) :
    (convertValues u m).2.lookup name = some d ↔
      ∃ value v S, m.lookup name = some value ∧ value ≠ Any.null ∧
        getComplexObjectInfo u value = (v, S, true) ∧ S ≠ "" ∧
        d = { Type_ := "json", Value := S } := by
  have hl := (convertValues_lookup u m name).2
  rw [hl]
  cases hm : m.lookup name with
  | none => simp
  | some value =>
    rw [Option.some_bind]
    constructor
    · intro h
      unfold schemaEntry at h
      split_ifs at h with h1 h2 h3
      · refine ⟨value, (getComplexObjectInfo u value).1, (getComplexObjectInfo u value).2.1, rfl,
          (notNil_iff value).mp h1, ?_, h3, ?_⟩
        · rw [← h2]
        · exact (Option.some.inj h).symm
    · rintro ⟨value', v, S, hv, hnn, hinfo, hS, hd⟩
      cases Option.some.inj hv
      have h1 : value.notNil = true := (notNil_iff value).mpr hnn
      simp [schemaEntry, h1, hinfo, hS, hd]

/-- C17: a text on which the decoder succeeds and leaves both fields of the
complex object unset, as `encoding/json` does on a JSON object that has
neither a `value` nor a `metadata` field, makes the inspector report a match
with a null value and an empty schema; `convertValues` then binds the name to
null in the cleaned mapping, the text being lost, and creates no schema
entry. -/
theorem convertValues_plain_object_text (u : String → Option legacyData.ComplexObject)
    (m : ValueMap) (name t : String)
    (hentry : m.lookup name = some (Any.str t)) (ht : t ≠ "")
    (hdec : u t = some { Metadata := "", Value := Any.null }) :
    getComplexObjectInfo u (Any.str t) = (Any.null, "", true) ∧
    (convertValues u m).1.lookup name = some Any.null ∧
    (convertValues u m).2.lookup name = none := by
  have hinfo : getComplexObjectInfo u (Any.str t) = (Any.null, "", true) := by
    simp [getComplexObjectInfo, ht, hdec]
  have hl := convertValues_lookup u m name
  rw [hentry] at hl
  refine ⟨hinfo, ?_, ?_⟩
  · simpa [cleanedEntry, hinfo, Any.notNil, Any.eqStr] using hl.1
  · simpa [schemaEntry, hinfo, Any.notNil] using hl.2

/-- Witness of C17: the texts `{"a":1}` and `{}` with the decoder model. -/
theorem convertValues_plain_object_text_witness :
    (getComplexObjectInfo Json.unmarshal (Any.str plainObjectText) = (Any.null, "", true) ∧
      (convertValues Json.unmarshal
        ((AList.singleton "x" (Any.str plainObjectText) : ValueMap).insert "y"
          (Any.str "{}"))).1.lookup "x" = some Any.null ∧
      (convertValues Json.unmarshal
        ((AList.singleton "x" (Any.str plainObjectText) : ValueMap).insert "y"
          (Any.str "{}"))).2.lookup "x" = none) ∧
    (getComplexObjectInfo Json.unmarshal (Any.str "{}") = (Any.null, "", true) ∧
      (convertValues Json.unmarshal
        ((AList.singleton "x" (Any.str plainObjectText) : ValueMap).insert "y"
          (Any.str "{}"))).1.lookup "y" = some Any.null ∧
      (convertValues Json.unmarshal
        ((AList.singleton "x" (Any.str plainObjectText) : ValueMap).insert "y"
          (Any.str "{}"))).2.lookup "y" = none) :=
  ⟨convertValues_plain_object_text Json.unmarshal
      ((AList.singleton "x" (Any.str plainObjectText) : ValueMap).insert "y" (Any.str "{}"))
      "x" plainObjectText rfl (by decide) rfl,
   convertValues_plain_object_text Json.unmarshal
      ((AList.singleton "x" (Any.str plainObjectText) : ValueMap).insert "y" (Any.str "{}"))
      "y" "{}" rfl (by decide) rfl⟩

/-! ## Settings in the activity-configuration converter -/

/-- The fields of a successful `createActivityConfig` that do not depend on
the data-mappings. -/
theorem createActivityConfig_ok_fields {A T M : Type} (c : Collab A T M)
    (rep : legacyDef.ActivityConfigRep M) (cfg : activity.Config)
    (hok : createActivityConfig c rep = Except.ok cfg) :
    cfg.Ref = rep.Ref ∧
    (¬ (convertValues c.unmarshal rep.Settings).1.len > 0 → cfg.Settings = rep.Settings) ∧
    cfg.Schemas =
      (if (convertValues c.unmarshal rep.InputAttrs).2.len > 0 ∨
          (convertValues c.unmarshal rep.OutputAttrs).2.len > 0 then
        some
          { Input :=
              if (convertValues c.unmarshal rep.InputAttrs).2.len > 0
              then some (convertValues c.unmarshal rep.InputAttrs).2 else none
            Output :=
              if (convertValues c.unmarshal rep.OutputAttrs).2.len > 0
              then some (convertValues c.unmarshal rep.OutputAttrs).2 else none }
      else none) := by
  rcases createActivityConfig_ok_cases c rep cfg hok with hmap | ⟨mp, im, om, hmap, hconv⟩
  · rw [createActivityConfig_noMappings c rep hmap] at hok
    cases hok
    exact ⟨rfl, fun h => by simp [h], rfl⟩
  · rw [createActivityConfig_mappings c rep mp im om hmap hconv] at hok
    cases hok
    exact ⟨rfl, fun h => by simp [h], rfl⟩

/-- C16: a successful `createActivityConfig` copies the legacy reference
string to `Ref`, and when `convertValues` over the legacy settings yields an
empty mapping its `Settings` are the raw legacy settings mapping. -/
theorem createActivityConfig_fallback {A T M : Type} (c : Collab A T M)
    (rep : legacyDef.ActivityConfigRep M) (cfg : activity.Config)
    (hok : createActivityConfig c rep = Except.ok cfg) :
    cfg.Ref = rep.Ref ∧
    ((convertValues c.unmarshal rep.Settings).1.len = 0 → cfg.Settings = rep.Settings) := by
  obtain ⟨hRef, hSet, -⟩ := createActivityConfig_ok_fields c rep cfg hok
  exact ⟨hRef, fun h => hSet (by omega)⟩

/-- Witness of C16: the only settings entry unwraps to the empty text and is
removed, so the converted settings mapping is empty although the legacy
settings are not; the raw settings are kept. -/
theorem createActivityConfig_fallback_witness :
    ∃ cfg, createActivityConfig sampleCollab
        (sampleActivity none (AList.singleton "s" (Any.str emptyValueText))
          (AList.singleton "message" (Any.str "hi")) ∅) = Except.ok cfg ∧
      (convertValues sampleCollab.unmarshal
        (AList.singleton "s" (Any.str emptyValueText))).1.len = 0 ∧
      cfg.Ref = "github.com/TIBCOSoftware/flogo-contrib/activity/log" ∧
      cfg.Settings = AList.singleton "s" (Any.str emptyValueText) := by
  obtain ⟨h1, h2⟩ := createActivityConfig_fallback sampleCollab
    (sampleActivity none (AList.singleton "s" (Any.str emptyValueText))
      (AList.singleton "message" (Any.str "hi")) ∅) _ rfl
  exact ⟨_, rfl, rfl, h1, h2 rfl⟩

/-- C19: two legacy activity configurations with the same declared inputs,
declared outputs and mappings, whatever their settings, convert alike: when
one succeeds so does the other, with the same `Schemas`, `Input` and
`Output`. The `Schemas` of a result are determined by the declared inputs and
outputs alone, so no schema text embedded in a settings value reaches them. -/
theorem createActivityConfig_settings_independent {A T M : Type} (c : Collab A T M)
    (rep1 rep2 : legacyDef.ActivityConfigRep M) (cfg1 : activity.Config)
    (hIn : rep1.InputAttrs = rep2.InputAttrs) (hOut : rep1.OutputAttrs = rep2.OutputAttrs)
    (hok1 : createActivityConfig c rep1 = Except.ok cfg1) :
    (rep1.Mappings = rep2.Mappings →
      ∃ cfg2, createActivityConfig c rep2 = Except.ok cfg2 ∧
        cfg2.Schemas = cfg1.Schemas ∧ cfg2.Input = cfg1.Input ∧ cfg2.Output = cfg1.Output) ∧
    (∀ cfg2, createActivityConfig c rep2 = Except.ok cfg2 → cfg2.Schemas = cfg1.Schemas) := by
  constructor
  · intro hMap
    rcases createActivityConfig_ok_cases c rep1 cfg1 hok1 with hmap | ⟨mp, im, om, hmap, hconv⟩
    · rw [createActivityConfig_noMappings c rep1 hmap] at hok1
      cases hok1
      refine ⟨_, createActivityConfig_noMappings c rep2 (hMap ▸ hmap), ?_, ?_, ?_⟩ <;>
        simp only [hIn, hOut]
    · rw [createActivityConfig_mappings c rep1 mp im om hmap hconv] at hok1
      cases hok1
      refine ⟨_, createActivityConfig_mappings c rep2 mp im om (hMap ▸ hmap) hconv, ?_, ?_, ?_⟩ <;>
        simp only [hIn, hOut]
  · intro cfg2 hok2
    rw [(createActivityConfig_ok_fields c rep1 cfg1 hok1).2.2,
      (createActivityConfig_ok_fields c rep2 cfg2 hok2).2.2, hIn, hOut]

/-- Witness of C19: the same inputs with empty settings and with a settings
value that embeds a schema text: the results agree, and the schema
configuration holds only the schema of the declared input. -/
theorem createActivityConfig_settings_independent_witness :
    ∃ cfg1 cfg2,
      createActivityConfig sampleCollab
        (sampleActivity none ∅ (AList.singleton "payload" (Any.str payloadText)) ∅) =
        Except.ok cfg1 ∧
      createActivityConfig sampleCollab
        (sampleActivity none
          (AList.singleton "secret"
            (Any.obj [("value", Any.num "1"), ("metadata", Any.str "{type:secret}")]))
          (AList.singleton "payload" (Any.str payloadText)) ∅) = Except.ok cfg2 ∧
      cfg2.Schemas = cfg1.Schemas ∧ cfg2.Input = cfg1.Input ∧ cfg2.Output = cfg1.Output ∧
      cfg1.Schemas = some
        { Input := some (AList.singleton "payload" { Type_ := "json", Value := "{type:object}" })
          Output := none } := by
  obtain ⟨cfg2, h2, hS, hI, hO⟩ := (createActivityConfig_settings_independent sampleCollab
    (sampleActivity none ∅ (AList.singleton "payload" (Any.str payloadText)) ∅)
    (sampleActivity none
      (AList.singleton "secret"
        (Any.obj [("value", Any.num "1"), ("metadata", Any.str "{type:secret}")]))
      (AList.singleton "payload" (Any.str payloadText)) ∅) _ rfl rfl rfl).1 rfl
  exact ⟨_, cfg2, rfl, h2, hS, hI, hO, rfl⟩

/-! ## Tasks, links and the definition converter -/

/-- `createTask` fails exactly with the failure of the mapping converter on
the mappings of the task's activity configuration. -/
theorem createTask_error_iff {A T M : Type} (c : Collab A T M) (rep : legacyDef.TaskRep M)
    (err : GoError) :
    createTask c rep = Except.error err ↔
      ∃ act mp, rep.ActivityCfgRep = some act ∧ act.Mappings = some mp ∧
        c.ConvertLegacyMappings mp.Input mp.Output = Except.error err := by
  unfold createTask
  cases hact : rep.ActivityCfgRep with
  | none => simp
  | some act =>
    cases hmap : act.Mappings with
    | none => simp [createActivityConfig_noMappings c act hmap, hmap]
    | some mp =>
      cases hconv : c.ConvertLegacyMappings mp.Input mp.Output with
      | error e =>
        simp [createActivityConfig_mappings_error c act mp e hmap hconv, hmap, hconv]
      | ok r =>
        have h := createActivityConfig_mappings c act mp r.1 r.2 hmap hconv
        simp [h, hmap, hconv]

/-- A task converted by `createTask`: the copied fields, and the activity
configuration converted by `createActivityConfig` when there is one. -/
theorem createTask_ok {A T M : Type} (c : Collab A T M) (rep : legacyDef.TaskRep M)
    (task : definition.TaskRep) (hok : createTask c rep = Except.ok task) :
    task.ID = rep.ID ∧ task.Name = rep.Name ∧ task.Type_ = rep.Type_ ∧
    task.Settings = rep.Settings ∧
    (rep.ActivityCfgRep = none → task.ActivityCfgRep = none) ∧
    (∀ act, rep.ActivityCfgRep = some act →
      ∃ cfg, createActivityConfig c act = Except.ok cfg ∧ task.ActivityCfgRep = some cfg) := by
  unfold createTask at hok
  cases hact : rep.ActivityCfgRep with
  | none =>
    rw [hact] at hok
    cases hok
    simp
  | some act =>
    rw [hact] at hok
    cases hcfg : createActivityConfig c act with
    | error e => simp only [hcfg] at hok; cases hok
    | ok cfg =>
      simp only [hcfg] at hok
      cases hok
      simp [hcfg]

/-- The task loop succeeds exactly when every task converts, and then appends
the converted tasks in order. -/
theorem createTasks_ok_iff {A T M : Type} (c : Collab A T M) :
    ∀ (l : List (legacyDef.TaskRep M)) (acc r : List definition.TaskRep),
      createTasks c l acc = Except.ok r ↔
        ∃ l', List.Forall₂ (fun t t' => createTask c t = Except.ok t') l l' ∧ r = acc ++ l' := by
  intro l
  induction l with
  | nil =>
    intro acc r
    simp only [createTasks, Except.ok.injEq, List.forall₂_nil_left_iff]
    constructor
    · intro h; exact ⟨[], rfl, by simp [h]⟩
    · rintro ⟨l', rfl, h⟩; simp [h]
  | cons t rest ih =>
    intro acc r
    unfold createTasks
    cases ht : createTask c t with
    | error e =>
      simp only [List.forall₂_cons_left_iff]
      constructor
      · intro h; cases h
      · rintro ⟨l', ⟨t', u, ht', -, -⟩, -⟩
        rw [ht] at ht'
        cases ht'
    | ok task =>
      simp only [ih, List.forall₂_cons_left_iff]
      constructor
      · rintro ⟨l', hl', hr⟩
        exact ⟨task :: l', ⟨task, l', ht, hl', rfl⟩, by simp [hr]⟩
      · rintro ⟨l'', ⟨t', u, ht', hu, rfl⟩, hr⟩
        rw [ht] at ht'
        cases ht'
        exact ⟨u, hu, by simp [hr]⟩

/-- The task loop returns the failure of the first task that fails. -/
theorem createTasks_first_error {A T M : Type} (c : Collab A T M) :
    ∀ (pre : List (legacyDef.TaskRep M)) (t : legacyDef.TaskRep M)
      (post : List (legacyDef.TaskRep M)) (acc : List definition.TaskRep) (err : GoError),
      (∀ x ∈ pre, ∃ y, createTask c x = Except.ok y) →
      createTask c t = Except.error err →
      createTasks c (pre ++ t :: post) acc = Except.error err := by
  intro pre
  induction pre with
  | nil =>
    intro t post acc err _ ht
    simp [createTasks, ht]
  | cons x pre ih =>
    intro t post acc err hpre ht
    obtain ⟨y, hy⟩ := hpre x (List.mem_cons_self x pre)
    simp only [List.cons_append, createTasks, hy]
    exact ih t post _ err (fun z hz => hpre z (List.mem_cons_of_mem x hz)) ht

/-- A failure of the task loop is the failure of one of its tasks, and the
tasks before it convert. -/
theorem createTasks_error_split {A T M : Type} (c : Collab A T M) :
    ∀ (l : List (legacyDef.TaskRep M)) (acc : List definition.TaskRep) (err : GoError),
      createTasks c l acc = Except.error err →
      ∃ pre t post, l = pre ++ t :: post ∧ (∀ x ∈ pre, ∃ y, createTask c x = Except.ok y) ∧
        createTask c t = Except.error err := by
  intro l
  induction l with
  | nil => intro acc err h; simp [createTasks] at h
  | cons t rest ih =>
    intro acc err h
    unfold createTasks at h
    cases ht : createTask c t with
    | error e =>
      rw [ht] at h
      cases h
      exact ⟨[], t, rest, rfl, by simp, ht⟩
    | ok task =>
      rw [ht] at h
      obtain ⟨pre, t', post, hl, hpre, ht'⟩ := ih _ err h
      refine ⟨t :: pre, t', post, by simp [hl], ?_, ht'⟩
      intro x hx
      rcases List.mem_cons.mp hx with rfl | hx
      · exact ⟨task, ht⟩
      · exact hpre x hx

/-- The task loop fails as soon as one of its tasks does. -/
theorem createTasks_error_of_mem {A T M : Type} (c : Collab A T M) :
    ∀ (l : List (legacyDef.TaskRep M)) (acc : List definition.TaskRep)
      (t : legacyDef.TaskRep M), t ∈ l → (∃ e, createTask c t = Except.error e) →
      ∃ e, createTasks c l acc = Except.error e := by
  intro l
  induction l with
  | nil => intro acc t h; cases h
  | cons x rest ih =>
    intro acc t hmem hfail
    unfold createTasks
    cases hx : createTask c x with
    | error e => exact ⟨e, rfl⟩
    | ok task =>
      rcases List.mem_cons.mp hmem with rfl | hmem
      · obtain ⟨e, he⟩ := hfail
        rw [hx] at he
        cases he
      · exact ih _ t hmem hfail

/-- The link loop appends the converted links in order. -/
theorem createLinks_eq (l : List legacyDef.LinkRep) :
    ∀ acc : List definition.LinkRep, createLinks l acc = acc ++ l.map createLink := by
  induction l with
  | nil => intro acc; simp [createLinks]
  | cons x rest ih => intro acc; simp [createLinks, ih]

/-- The guard `len(links) != 0` around the link loop changes nothing. -/
theorem createLinks_guard (l : List legacyDef.LinkRep) :
    (if l.length ≠ 0 then createLinks l [] else []) = l.map createLink := by
  cases l with
  | nil => simp
  | cons x rest => simp [createLinks_eq]

/-- A definition with a root task is rejected at once. -/
theorem convertLegacyFlow_rootTask_fails_aux {A T M R : Type} (c : Collab A T M)
    (rep : legacyDef.DefinitionRep A M R) (hroot : rep.RootTask.isSome = true) :
    convertLegacyFlow c rep =
      Except.error "definition too old to be automatically converted" := by
  unfold convertLegacyFlow
  simp [hroot]

/-- `convertLegacyFlow` on a definition without `RootTask`, as the sequence of
its four blocks. -/
theorem convertLegacyFlow_eq {A T M R : Type} (c : Collab A T M)
    (rep : legacyDef.DefinitionRep A M R) (hroot : rep.RootTask = none) :
    convertLegacyFlow c rep =
      (match convertMetadata c.ConvertLegacyAttr rep.Metadata with
        | Except.error err => Except.error err
        | Except.ok md =>
          match createTasks c rep.Tasks [] with
          | Except.error err => Except.error err
          | Except.ok tasks =>
            match convertErrorHandler c rep.ErrorHandler with
            | Except.error err => Except.error err
            | Except.ok errorHandler =>
              Except.ok
                { Name := rep.Name, ModelID := rep.ModelID, ExplicitReply := rep.ExplicitReply
                  Metadata := md, Tasks := tasks, Links := rep.Links.map createLink
                  ErrorHandler := errorHandler }) := by
  unfold convertLegacyFlow
  simp only [hroot, Option.isSome_none, Bool.false_eq_true, if_false, createTasks_guard,
    createLinks_guard]

/-- The error-handler block on a present handler. -/
theorem convertErrorHandler_some {A T M : Type} (c : Collab A T M)
    (eh : legacyDef.ErrorHandlerRep M) :
    convertErrorHandler c (some eh) =
      (match createTasks c eh.Tasks [] with
        | Except.error err => Except.error err
        | Except.ok tasks =>
          Except.ok (some { Tasks := tasks, Links := eh.Links.map createLink })) := by
  unfold convertErrorHandler
  simp only [createTasks_guard, createLinks_guard]

/-- A successful `convertLegacyFlow`, block by block. -/
theorem convertLegacyFlow_ok_inv {A T M R : Type} (c : Collab A T M)
    (rep : legacyDef.DefinitionRep A M R) (d : definition.DefinitionRep T)
    (hok : convertLegacyFlow c rep = Except.ok d) :
    rep.RootTask = none ∧
    ∃ md tasks eh,
      convertMetadata c.ConvertLegacyAttr rep.Metadata = Except.ok md ∧
      createTasks c rep.Tasks [] = Except.ok tasks ∧
      convertErrorHandler c rep.ErrorHandler = Except.ok eh ∧
      d = { Name := rep.Name, ModelID := rep.ModelID, ExplicitReply := rep.ExplicitReply
            Metadata := md, Tasks := tasks, Links := rep.Links.map createLink
            ErrorHandler := eh } := by
  have hroot : rep.RootTask = none := by
    cases hr : rep.RootTask with
    | none => rfl
    | some r =>
      rw [convertLegacyFlow_rootTask_fails_aux c rep (by simp [hr])] at hok
      cases hok
  refine ⟨hroot, ?_⟩
  rw [convertLegacyFlow_eq c rep hroot] at hok
  cases hmd : convertMetadata c.ConvertLegacyAttr rep.Metadata with
  | error e => simp only [hmd] at hok; cases hok
  | ok md =>
    cases hts : createTasks c rep.Tasks [] with
    | error e => simp only [hmd, hts] at hok; cases hok
    | ok tasks =>
      cases heh : convertErrorHandler c rep.ErrorHandler with
      | error e => simp only [hmd, hts, heh] at hok; cases hok
      | ok eh =>
        simp only [hmd, hts, heh] at hok
        cases hok
        exact ⟨md, tasks, eh, rfl, rfl, rfl, rfl⟩

/-- C12: for a legacy definition without `RootTask` whose metadata converts,
if the conversion of at least one task of the main list fails, there is a
first such task in list order, its failure is the one the mapping converter
produced on its mappings, and `convertLegacyFlow` returns that failure,
unchanged, and no definition. -/
theorem convertLegacyFlow_fail_fast {A T M R : Type} (c : Collab A T M)
    (rep : legacyDef.DefinitionRep A M R) (md : Option (metadata.IOMetadata T))
    (hroot : rep.RootTask = none)
    (hmeta : convertMetadata c.ConvertLegacyAttr rep.Metadata = Except.ok md)
    (hfail : ∃ t ∈ rep.Tasks, ∃ e, createTask c t = Except.error e) :
    ∃ pre t post err,
      rep.Tasks = pre ++ t :: post ∧
      (∀ x ∈ pre, ∃ y, createTask c x = Except.ok y) ∧
      createTask c t = Except.error err ∧
      (∃ act mp, t.ActivityCfgRep = some act ∧ act.Mappings = some mp ∧
        c.ConvertLegacyMappings mp.Input mp.Output = Except.error err) ∧
      convertLegacyFlow c rep = Except.error err := by
  obtain ⟨t0, hmem, hfail0⟩ := hfail
  obtain ⟨e, he⟩ := createTasks_error_of_mem c rep.Tasks [] t0 hmem hfail0
  obtain ⟨pre, t, post, hl, hpre, ht⟩ := createTasks_error_split c rep.Tasks [] e he
  refine ⟨pre, t, post, e, hl, hpre, ht, (createTask_error_iff c t e).mp ht, ?_⟩
  rw [convertLegacyFlow_eq c rep hroot]
  simp only [hmeta, he]

/-- Witness of C12: the first task converts, the second and the third fail on
their mappings. -/
theorem convertLegacyFlow_fail_fast_witness :
    ∃ pre t post err,
      (sampleDefinition
        [sampleTask "a" none, sampleTask "b" (some failingActivity),
          sampleTask "c" (some failingActivity)] none).Tasks = pre ++ t :: post ∧
      (∀ x ∈ pre, ∃ y, createTask sampleCollab x = Except.ok y) ∧
      createTask sampleCollab t = Except.error err ∧
      (∃ act mp, t.ActivityCfgRep = some act ∧ act.Mappings = some mp ∧
        sampleCollab.ConvertLegacyMappings mp.Input mp.Output = Except.error err) ∧
      convertLegacyFlow sampleCollab
        (sampleDefinition
          [sampleTask "a" none, sampleTask "b" (some failingActivity),
            sampleTask "c" (some failingActivity)] none) = Except.error err :=
  convertLegacyFlow_fail_fast sampleCollab
    (sampleDefinition
      [sampleTask "a" none, sampleTask "b" (some failingActivity),
        sampleTask "c" (some failingActivity)] none)
    none rfl rfl
    ⟨sampleTask "c" (some failingActivity), by simp [sampleDefinition],
      "invalid mapping", rfl⟩

/-- C13, counterexample: two definitions fail with the same underlying
failure, one at the task with id `a` in first position and the other at the
task with id `b` in second position; `convertLegacyFlow` returns the same
failure for both, the bare message of the mapping converter. -/
theorem convertLegacyFlow_task_failure_counterexample :
    (sampleTask "a" (some failingActivity)).ID ≠ (sampleTask "b" (some failingActivity)).ID ∧
    convertLegacyFlow sampleCollab
      (sampleDefinition [sampleTask "a" (some failingActivity)] none) =
        Except.error "invalid mapping" ∧
    convertLegacyFlow sampleCollab
      (sampleDefinition [sampleTask "ok" none, sampleTask "b" (some failingActivity)] none) =
        Except.error "invalid mapping" ∧
    sampleCollab.ConvertLegacyMappings [("", Any.str "$flow.msg")] [] =
      Except.error "invalid mapping" :=
  ⟨by decide, rfl, rfl, rfl⟩

/-- C13, amended: when the conversion of a task's activity configuration
fails, in a definition without `RootTask` whose metadata converts, the
failure returned by `convertLegacyFlow` is the underlying failure itself, as
the mapping converter produced it for the first failing task, with no
wrapper and no position or id of the task: two definitions whose first
failing tasks, whatever their ids and positions, fail with the same
underlying failure return the same failure. -/
theorem convertLegacyFlow_task_failure_unwrapped {A T M R : Type} (c : Collab A T M)
    (rep1 rep2 : legacyDef.DefinitionRep A M R) (md1 md2 : Option (metadata.IOMetadata T))
    (pre1 post1 pre2 post2 : List (legacyDef.TaskRep M)) (t1 t2 : legacyDef.TaskRep M)
    (act1 act2 : legacyDef.ActivityConfigRep M) (mp1 mp2 : legacyDef.Mappings M)
    (err : GoError)
    (hroot1 : rep1.RootTask = none) (hroot2 : rep2.RootTask = none)
    (hmeta1 : convertMetadata c.ConvertLegacyAttr rep1.Metadata = Except.ok md1)
    (hmeta2 : convertMetadata c.ConvertLegacyAttr rep2.Metadata = Except.ok md2)
    (htasks1 : rep1.Tasks = pre1 ++ t1 :: post1) (htasks2 : rep2.Tasks = pre2 ++ t2 :: post2)
    (hpre1 : ∀ x ∈ pre1, ∃ y, createTask c x = Except.ok y)
    (hpre2 : ∀ x ∈ pre2, ∃ y, createTask c x = Except.ok y)
    (hact1 : t1.ActivityCfgRep = some act1) (hact2 : t2.ActivityCfgRep = some act2)
    (hmap1 : act1.Mappings = some mp1) (hmap2 : act2.Mappings = some mp2)
    (hconv1 : c.ConvertLegacyMappings mp1.Input mp1.Output = Except.error err)
    (hconv2 : c.ConvertLegacyMappings mp2.Input mp2.Output = Except.error err) :
    convertLegacyFlow c rep1 = Except.error err ∧
    convertLegacyFlow c rep2 = Except.error err ∧
    convertLegacyFlow c rep1 = convertLegacyFlow c rep2 := by
  have h1 : convertLegacyFlow c rep1 = Except.error err := by
    rw [convertLegacyFlow_eq c rep1 hroot1, htasks1]
    simp only [hmeta1, createTasks_first_error c pre1 t1 post1 [] err hpre1
      ((createTask_error_iff c t1 err).mpr ⟨act1, mp1, hact1, hmap1, hconv1⟩)]
  have h2 : convertLegacyFlow c rep2 = Except.error err := by
    rw [convertLegacyFlow_eq c rep2 hroot2, htasks2]
    simp only [hmeta2, createTasks_first_error c pre2 t2 post2 [] err hpre2
      ((createTask_error_iff c t2 err).mpr ⟨act2, mp2, hact2, hmap2, hconv2⟩)]
  exact ⟨h1, h2, h1.trans h2.symm⟩

/-- Witness of C13 (amended): the two definitions of the counterexample. -/
theorem convertLegacyFlow_task_failure_unwrapped_witness :
    convertLegacyFlow sampleCollab
      (sampleDefinition [sampleTask "a" (some failingActivity)] none) =
        Except.error "invalid mapping" ∧
    convertLegacyFlow sampleCollab
      (sampleDefinition [sampleTask "ok" none, sampleTask "b" (some failingActivity)] none) =
        Except.error "invalid mapping" ∧
    convertLegacyFlow sampleCollab
      (sampleDefinition [sampleTask "a" (some failingActivity)] none) =
    convertLegacyFlow sampleCollab
      (sampleDefinition [sampleTask "ok" none, sampleTask "b" (some failingActivity)] none) :=
  convertLegacyFlow_task_failure_unwrapped sampleCollab
    (sampleDefinition [sampleTask "a" (some failingActivity)] none)
    (sampleDefinition [sampleTask "ok" none, sampleTask "b" (some failingActivity)] none)
    none none [] [] [sampleTask "ok" none] []
    (sampleTask "a" (some failingActivity)) (sampleTask "b" (some failingActivity))
    failingActivity failingActivity
    { Input := [("", Any.str "$flow.msg")], Output := [] }
    { Input := [("", Any.str "$flow.msg")], Output := [] }
    "invalid mapping" rfl rfl rfl rfl rfl rfl (by simp)
    (by intro x hx; simp at hx; subst hx; exact ⟨_, rfl⟩) rfl rfl rfl rfl rfl rfl

/-- Two lists related element by element have the same length and related
elements at each index. -/
theorem forall₂_getElem? {α β : Type} (R : α → β → Prop) :
    ∀ (l : List α) (l' : List β), List.Forall₂ R l l' →
      l'.length = l.length ∧
      ∀ (i : Nat) (a : α), l[i]? = some a → ∃ b, l'[i]? = some b ∧ R a b := by
  intro l l' h
  induction h with
  | nil => simp
  | cons hab _ ih =>
    refine ⟨by simp [ih.1], ?_⟩
    intro i a ha
    cases i with
    | zero =>
      simp only [List.getElem?_cons_zero, Option.some.injEq] at ha
      subst ha
      exact ⟨_, by simp, hab⟩
    | succ n =>
      simp only [List.getElem?_cons_succ] at ha
      simpa using ih.2 n a ha

/-- C14: for a legacy definition that `convertLegacyFlow` converts, the
output task list has the length of the legacy task list and its i-th task has
the id, name, type and settings of the i-th legacy task, with no activity
configuration when the legacy task has none and otherwise the result of
`createActivityConfig` on the legacy one; the output link list has the length
of the legacy link list and its i-th link has the name, value, type, fromID
and toID of the i-th legacy link. -/
theorem convertLegacyFlow_tasks_links {A T M R : Type} (c : Collab A T M)
    (rep : legacyDef.DefinitionRep A M R) (d : definition.DefinitionRep T)
    (hok : convertLegacyFlow c rep = Except.ok d) :
    d.Tasks.length = rep.Tasks.length ∧
    (∀ (i : Nat) (t : legacyDef.TaskRep M), rep.Tasks[i]? = some t →
      ∃ t', d.Tasks[i]? = some t' ∧
        t'.ID = t.ID ∧ t'.Name = t.Name ∧ t'.Type_ = t.Type_ ∧ t'.Settings = t.Settings ∧
        (t.ActivityCfgRep = none → t'.ActivityCfgRep = none) ∧
        (∀ act, t.ActivityCfgRep = some act →
          ∃ cfg, createActivityConfig c act = Except.ok cfg ∧
            t'.ActivityCfgRep = some cfg)) ∧
    d.Links.length = rep.Links.length ∧
    (∀ (i : Nat) (l : legacyDef.LinkRep), rep.Links[i]? = some l →
      ∃ l', d.Links[i]? = some l' ∧
        l'.Name = l.Name ∧ l'.Value = l.Value ∧ l'.Type_ = l.Type_ ∧
        l'.FromID = l.FromID ∧ l'.ToID = l.ToID) := by
  obtain ⟨-, md, tasks, eh, -, hts, -, rfl⟩ := convertLegacyFlow_ok_inv c rep d hok
  obtain ⟨l', hl', hr⟩ := (createTasks_ok_iff c rep.Tasks [] tasks).mp hts
  rw [List.nil_append] at hr
  subst hr
  obtain ⟨hlen, hget⟩ := forall₂_getElem? _ rep.Tasks tasks hl'
  refine ⟨hlen, ?_, by simp, ?_⟩
  · intro i t ht
    obtain ⟨t', ht', hR⟩ := hget i t ht
    exact ⟨t', ht', createTask_ok c t t' hR⟩
  · intro i l hl
    refine ⟨createLink l, by simp [List.getElem?_map, hl], rfl, rfl, rfl, rfl, rfl⟩

/-- Witness of C14: two tasks, one of them with an activity configuration,
and one link. -/
theorem convertLegacyFlow_tasks_links_witness :
    ∃ d t',
      convertLegacyFlow sampleCollab
        { sampleDefinition
            [sampleTask "a" none,
              sampleTask "b" (some (sampleActivity none ∅
                (AList.singleton "message" (Any.str "hi")) ∅))] none with
          Links := [{ Type_ := "0", Name := "a to b", ToID := "b", FromID := "a", Value := "" }] } =
        Except.ok d ∧
      d.Tasks.length = 2 ∧ d.Links.length = 1 ∧
      d.Tasks[1]? = some t' ∧ t'.ID = "b" ∧ t'.Name = "task b" ∧
      (∃ cfg, createActivityConfig sampleCollab (sampleActivity none ∅
          (AList.singleton "message" (Any.str "hi")) ∅) = Except.ok cfg ∧
        t'.ActivityCfgRep = some cfg) ∧
      d.Links[0]? =
        some { Type_ := "0", Name := "a to b", ToID := "b", FromID := "a", Value := "" } := by
  obtain ⟨h1, h2, h3, -⟩ := convertLegacyFlow_tasks_links sampleCollab
    { sampleDefinition
        [sampleTask "a" none,
          sampleTask "b" (some (sampleActivity none ∅
            (AList.singleton "message" (Any.str "hi")) ∅))] none with
      Links := [{ Type_ := "0", Name := "a to b", ToID := "b", FromID := "a", Value := "" }] }
    _ rfl
  obtain ⟨t', ht', hID, hName, -, -, -, hact⟩ := h2 1 _ rfl
  exact ⟨_, t', rfl, h1, h3, ht', hID, hName, hact _ rfl, rfl⟩

/-- C15: a converted definition has an error handler exactly when the legacy
definition has one; its task list is the legacy handler's task list converted
in order by `createTask` and its link list the legacy handler's link list
converted in order by `createLink`. A failure converting any task of the
error handler makes the whole conversion fail, with no definition. -/
theorem convertLegacyFlow_errorHandler {A T M R : Type} (c : Collab A T M)
    (rep : legacyDef.DefinitionRep A M R) :
    (∀ d : definition.DefinitionRep T, convertLegacyFlow c rep = Except.ok d →
      (d.ErrorHandler = none ↔ rep.ErrorHandler = none) ∧
      ∀ eh, rep.ErrorHandler = some eh →
        ∃ eh', d.ErrorHandler = some eh' ∧
          List.Forall₂ (fun t t' => createTask c t = Except.ok t') eh.Tasks eh'.Tasks ∧
          eh'.Links = eh.Links.map createLink) ∧
    (∀ eh t, rep.ErrorHandler = some eh → t ∈ eh.Tasks →
      (∃ e, createTask c t = Except.error e) →
      ∃ e, convertLegacyFlow c rep = Except.error e) := by
  have key : ∀ d : definition.DefinitionRep T, convertLegacyFlow c rep = Except.ok d →
      (d.ErrorHandler = none ↔ rep.ErrorHandler = none) ∧
      ∀ eh, rep.ErrorHandler = some eh →
        ∃ eh', d.ErrorHandler = some eh' ∧
          List.Forall₂ (fun t t' => createTask c t = Except.ok t') eh.Tasks eh'.Tasks ∧
          eh'.Links = eh.Links.map createLink := by
    intro d hok
    obtain ⟨-, md, tasks, eh', -, -, heh, rfl⟩ := convertLegacyFlow_ok_inv c rep d hok
    cases hr : rep.ErrorHandler with
    | none =>
      rw [hr] at heh
      simp only [convertErrorHandler, Except.ok.injEq] at heh
      subst heh
      simp
    | some eh =>
      rw [hr, convertErrorHandler_some] at heh
      cases hts : createTasks c eh.Tasks [] with
      | error e => simp only [hts] at heh; cases heh
      | ok ts =>
        simp only [hts, Except.ok.injEq] at heh
        subst heh
        obtain ⟨l', hl', hr'⟩ := (createTasks_ok_iff c eh.Tasks [] ts).mp hts
        rw [List.nil_append] at hr'
        subst hr'
        refine ⟨by simp, ?_⟩
        intro eh0 h0
        cases Option.some.inj h0
        exact ⟨_, rfl, hl', rfl⟩
  refine ⟨key, ?_⟩
  intro eh t hr hmem hfail
  cases hres : convertLegacyFlow c rep with
  | error e => exact ⟨e, rfl⟩
  | ok d =>
    obtain ⟨eh', -, hall, -⟩ := (key d hres).2 eh hr
    obtain ⟨e, he⟩ := hfail
    have hok : createTasks c eh.Tasks [] = Except.ok ([] ++ eh'.Tasks) :=
      (createTasks_ok_iff c eh.Tasks [] _).mpr ⟨eh'.Tasks, hall, rfl⟩
    obtain ⟨e', he'⟩ := createTasks_error_of_mem c eh.Tasks [] t hmem ⟨e, he⟩
    rw [hok] at he'
    cases he'

/-- Witness of C15: an error handler with one convertible task and one link
is converted; an error handler with a failing task makes the conversion
fail. -/
theorem convertLegacyFlow_errorHandler_witness :
    (∃ d eh',
      convertLegacyFlow sampleCollab
        { sampleDefinition [sampleTask "a" none] none with
          ErrorHandler := some
            { Tasks := [sampleTask "h" none]
              Links := [{ Type_ := "0", Name := "l", ToID := "h", FromID := "h", Value := "" }] } } =
        Except.ok d ∧
      d.ErrorHandler = some eh' ∧
      List.Forall₂ (fun t t' => createTask sampleCollab t = Except.ok t')
        [sampleTask "h" none] eh'.Tasks ∧
      eh'.Links =
        [{ Type_ := "0", Name := "l", ToID := "h", FromID := "h", Value := "" }]) ∧
    (∃ e,
      convertLegacyFlow sampleCollab
        { sampleDefinition [sampleTask "a" none] none with
          ErrorHandler := some
            { Tasks := [sampleTask "h" (some failingActivity)], Links := [] } } =
        Except.error e) := by
  constructor
  · obtain ⟨eh', h1, h2, h3⟩ := ((convertLegacyFlow_errorHandler sampleCollab
      { sampleDefinition [sampleTask "a" none] none with
        ErrorHandler := some
          { Tasks := [sampleTask "h" none]
            Links := [{ Type_ := "0", Name := "l", ToID := "h", FromID := "h", Value := "" }] } }).1
      _ rfl).2 _ rfl
    exact ⟨_, eh', rfl, h1, h2, h3⟩
  · exact (convertLegacyFlow_errorHandler sampleCollab
      { sampleDefinition [sampleTask "a" none] none with
        ErrorHandler := some
          { Tasks := [sampleTask "h" (some failingActivity)], Links := [] } }).2
      _ (sampleTask "h" (some failingActivity)) rfl (by simp) ⟨"invalid mapping", rfl⟩

/-- The attribute loop fails exactly when the attribute converter fails on
one of the attributes. -/
theorem convertAttrs_error_iff {A T : Type} (conv : A → Except GoError T) :
    ∀ (l : List (Sigma fun _ : String => A)) (acc : GoMap T),
      (∃ e, convertAttrs conv l acc = Except.error e) ↔
        ∃ x ∈ l, ∃ e, conv x.2 = Except.error e := by
  intro l
  induction l with
  | nil => intro acc; simp [convertAttrs]
  | cons x rest ih =>
    intro acc
    unfold convertAttrs
    cases hx : conv x.2 with
    | error e =>
      constructor
      · intro _; exact ⟨x, List.mem_cons_self x rest, e, hx⟩
      · intro _; exact ⟨e, rfl⟩
    | ok newAttr =>
      simp only [ih, List.mem_cons]
      constructor
      · rintro ⟨y, hy, e, he⟩; exact ⟨y, Or.inr hy, e, he⟩
      · rintro ⟨y, hy | hy, e, he⟩
        · subst hy; rw [hx] at he; cases he
        · exact ⟨y, hy, e, he⟩

/-- The attribute loop over a map fails exactly when the attribute converter
fails on an attribute bound in the map. -/
theorem convertAttrs_map_error_iff {A T : Type} (conv : A → Except GoError T) (m : GoMap A) :
    (∃ e, convertAttrs conv m.entries ∅ = Except.error e) ↔
      ∃ name a e, m.lookup name = some a ∧ conv a = Except.error e := by
  rw [convertAttrs_error_iff]
  constructor
  · rintro ⟨⟨name, a⟩, hx, e, he⟩
    exact ⟨name, a, e, AList.mem_lookup_iff.mpr hx, he⟩
  · rintro ⟨name, a, e, hl, he⟩
    exact ⟨⟨name, a⟩, AList.mem_lookup_iff.mp hl, e, he⟩

/-- The metadata block fails exactly when the attribute converter fails on a
declared input or output attribute. -/
theorem convertMetadata_error_iff {A T : Type} (conv : A → Except GoError T)
    (md : Option (legacyData.IOMetadata A)) :
    (∃ e, convertMetadata conv md = Except.error e) ↔
      ∃ m name a e, md = some m ∧
        (m.Input.lookup name = some a ∨ m.Output.lookup name = some a) ∧
        conv a = Except.error e := by
  cases md with
  | none => simp [convertMetadata]
  | some m =>
    have hin := convertAttrs_map_error_iff conv m.Input
    have hout := convertAttrs_map_error_iff conv m.Output
    have gin : (if m.Input.len > 0 then
          (match convertAttrs conv m.Input.entries ∅ with
            | Except.error err => (Except.error err : Except GoError (Option (GoMap T)))
            | Except.ok r => Except.ok (some r))
        else Except.ok none) =
        (match convertAttrs conv m.Input.entries ∅ with
          | Except.error err => Except.error err
          | Except.ok r => Except.ok (if m.Input.len > 0 then some r else none)) := by
      by_cases h : m.Input.len > 0
      · simp only [h, if_true]
      · have hnil : m.Input.entries = [] := by
          unfold GoMap.len at h
          exact List.length_eq_zero.mp (by omega)
        simp [h, hnil, convertAttrs]
    have gout : (if m.Output.len > 0 then
          (match convertAttrs conv m.Output.entries ∅ with
            | Except.error err => (Except.error err : Except GoError (Option (GoMap T)))
            | Except.ok r => Except.ok (some r))
        else Except.ok none) =
        (match convertAttrs conv m.Output.entries ∅ with
          | Except.error err => Except.error err
          | Except.ok r => Except.ok (if m.Output.len > 0 then some r else none)) := by
      by_cases h : m.Output.len > 0
      · simp only [h, if_true]
      · have hnil : m.Output.entries = [] := by
          unfold GoMap.len at h
          exact List.length_eq_zero.mp (by omega)
        simp [h, hnil, convertAttrs]
    unfold convertMetadata
    simp only [gin, gout]
    cases hi : convertAttrs conv m.Input.entries ∅ with
    | error e =>
      obtain ⟨name, a, e', hl, he⟩ := hin.mp ⟨e, hi⟩
      constructor
      · intro _; exact ⟨m, name, a, e', rfl, Or.inl hl, he⟩
      · intro _; exact ⟨e, rfl⟩
    | ok ri =>
      have hni : ¬ ∃ name a e, m.Input.lookup name = some a ∧ conv a = Except.error e := by
        intro h
        obtain ⟨e, he⟩ := hin.mpr h
        rw [hi] at he
        cases he
      cases ho : convertAttrs conv m.Output.entries ∅ with
      | error e =>
        obtain ⟨name, a, e', hl, he⟩ := hout.mp ⟨e, ho⟩
        constructor
        · intro _; exact ⟨m, name, a, e', rfl, Or.inr hl, he⟩
        · intro _; exact ⟨e, rfl⟩
      | ok ro =>
        have hno : ¬ ∃ name a e, m.Output.lookup name = some a ∧ conv a = Except.error e := by
          intro h
          obtain ⟨e, he⟩ := hout.mpr h
          rw [ho] at he
          cases he
        constructor
        · rintro ⟨e, he⟩; cases he
        · rintro ⟨m', name, a, e, hm, hl | hl, he⟩
          · cases Option.some.inj hm
            exact absurd ⟨name, a, e, hl, he⟩ hni
          · cases Option.some.inj hm
            exact absurd ⟨name, a, e, hl, he⟩ hno

/-- The task loop fails exactly when one of its tasks does. -/
theorem createTasks_error_iff {A T M : Type} (c : Collab A T M)
    (l : List (legacyDef.TaskRep M)) :
    (∃ e, createTasks c l [] = Except.error e) ↔
      ∃ t ∈ l, ∃ e, createTask c t = Except.error e := by
  constructor
  · rintro ⟨e, he⟩
    obtain ⟨pre, t, post, hl, -, ht⟩ := createTasks_error_split c l [] e he
    exact ⟨t, by simp [hl], e, ht⟩
  · rintro ⟨t, hmem, hfail⟩
    exact createTasks_error_of_mem c l [] t hmem hfail

/-- The error-handler block fails exactly when one of the handler's tasks
does. -/
theorem convertErrorHandler_error_iff {A T M : Type} (c : Collab A T M)
    (eh : Option (legacyDef.ErrorHandlerRep M)) :
    (∃ e, convertErrorHandler c eh = Except.error e) ↔
      ∃ h t, eh = some h ∧ t ∈ h.Tasks ∧ ∃ e, createTask c t = Except.error e := by
  cases eh with
  | none => simp [convertErrorHandler]
  | some h =>
    rw [convertErrorHandler_some]
    have key := createTasks_error_iff c h.Tasks
    cases hts : createTasks c h.Tasks [] with
    | error e =>
      obtain ⟨t, hmem, hfail⟩ := key.mp ⟨e, hts⟩
      constructor
      · intro _; exact ⟨h, t, rfl, hmem, hfail⟩
      · intro _; exact ⟨e, rfl⟩
    | ok ts =>
      constructor
      · rintro ⟨e, he⟩; cases he
      · rintro ⟨h', t, hh, hmem, hfail⟩
        cases Option.some.inj hh
        obtain ⟨e, he⟩ := key.mpr ⟨t, hmem, hfail⟩
        rw [hts] at he
        cases he

/-- C18: `convertLegacyFlow` fails exactly when the legacy definition has
`RootTask` set, or the attribute converter fails on a declared metadata input
or output attribute, or the mapping converter fails on the mappings of a task
of the main list or of the error handler. In particular a definition without
`RootTask`, metadata and data-mappings converts, whatever the settings, input
and output values of its tasks and whatever the decoder does on them. -/
theorem convertLegacyFlow_fails_iff {A T M R : Type} (c : Collab A T M)
    (rep : legacyDef.DefinitionRep A M R) :
    ((∃ e, convertLegacyFlow c rep = Except.error e) ↔
      (rep.RootTask ≠ none ∨
        (∃ m name a e, rep.Metadata = some m ∧
          (m.Input.lookup name = some a ∨ m.Output.lookup name = some a) ∧
          c.ConvertLegacyAttr a = Except.error e) ∨
        (∃ t act mp e,
          (t ∈ rep.Tasks ∨ ∃ h, rep.ErrorHandler = some h ∧ t ∈ h.Tasks) ∧
          t.ActivityCfgRep = some act ∧ act.Mappings = some mp ∧
          c.ConvertLegacyMappings mp.Input mp.Output = Except.error e))) ∧
    (rep.RootTask = none → rep.Metadata = none →
      (∀ t act, (t ∈ rep.Tasks ∨ ∃ h, rep.ErrorHandler = some h ∧ t ∈ h.Tasks) →
        t.ActivityCfgRep = some act → act.Mappings = none) →
      ∃ d, convertLegacyFlow c rep = Except.ok d) := by
  have hiff : (∃ e, convertLegacyFlow c rep = Except.error e) ↔
      (rep.RootTask ≠ none ∨
        (∃ m name a e, rep.Metadata = some m ∧
          (m.Input.lookup name = some a ∨ m.Output.lookup name = some a) ∧
          c.ConvertLegacyAttr a = Except.error e) ∨
        (∃ t act mp e,
          (t ∈ rep.Tasks ∨ ∃ h, rep.ErrorHandler = some h ∧ t ∈ h.Tasks) ∧
          t.ActivityCfgRep = some act ∧ act.Mappings = some mp ∧
          c.ConvertLegacyMappings mp.Input mp.Output = Except.error e)) := by
    cases hroot : rep.RootTask with
    | some r =>
      have h := convertLegacyFlow_rootTask_fails_aux c rep (by simp [hroot])
      constructor
      · intro _; exact Or.inl (by simp)
      · intro _; exact ⟨_, h⟩
    | none =>
      have hmd := convertMetadata_error_iff c.ConvertLegacyAttr rep.Metadata
      have hts := createTasks_error_iff c rep.Tasks
      have heh := convertErrorHandler_error_iff c rep.ErrorHandler
      rw [convertLegacyFlow_eq c rep hroot]
      constructor
      · intro hfail
        right
        cases h1 : convertMetadata c.ConvertLegacyAttr rep.Metadata with
        | error e => exact Or.inl (hmd.mp ⟨e, h1⟩)
        | ok md =>
          right
          cases h2 : createTasks c rep.Tasks [] with
          | error e =>
            obtain ⟨t, hmem, e', he'⟩ := hts.mp ⟨e, h2⟩
            obtain ⟨act, mp, hact, hmap, hconv⟩ := (createTask_error_iff c t e').mp he'
            exact ⟨t, act, mp, e', Or.inl hmem, hact, hmap, hconv⟩
          | ok tasks =>
            cases h3 : convertErrorHandler c rep.ErrorHandler with
            | error e =>
              obtain ⟨h, t, hh, hmem, e', he'⟩ := heh.mp ⟨e, h3⟩
              obtain ⟨act, mp, hact, hmap, hconv⟩ := (createTask_error_iff c t e').mp he'
              exact ⟨t, act, mp, e', Or.inr ⟨h, hh, hmem⟩, hact, hmap, hconv⟩
            | ok eh =>
              obtain ⟨e, he⟩ := hfail
              simp only [h1, h2, h3] at he
              cases he
      · rintro (h | h | ⟨t, act, mp, e, hwhere, hact, hmap, hconv⟩)
        · exact absurd rfl h
        · obtain ⟨e, he⟩ := hmd.mpr h
          exact ⟨e, by simp only [he]⟩
        · have ht : createTask c t = Except.error e :=
            (createTask_error_iff c t e).mpr ⟨act, mp, hact, hmap, hconv⟩
          cases h1 : convertMetadata c.ConvertLegacyAttr rep.Metadata with
          | error e1 => exact ⟨e1, rfl⟩
          | ok md =>
            cases h2 : createTasks c rep.Tasks [] with
            | error e2 => exact ⟨e2, rfl⟩
            | ok tasks =>
              rcases hwhere with hmem | ⟨h, hh, hmem⟩
              · obtain ⟨e2, he2⟩ := hts.mpr ⟨t, hmem, e, ht⟩
                rw [h2] at he2
                cases he2
              · obtain ⟨e3, he3⟩ := heh.mpr ⟨h, t, hh, hmem, e, ht⟩
                exact ⟨e3, by simp only [he3]⟩
  refine ⟨hiff, ?_⟩
  intro hroot hmeta hnomap
  cases hres : convertLegacyFlow c rep with
  | ok d => exact ⟨d, rfl⟩
  | error e =>
    rcases hiff.mp ⟨e, hres⟩ with h | ⟨m, _, _, _, hm, _, _⟩ | ⟨t, act, mp, _, hw, hact, hmap, _⟩
    · exact absurd hroot h
    · rw [hmeta] at hm
      cases hm
    · rw [hnomap t act hw hact] at hmap
      cases hmap

/-- Witness of C18: a task whose settings, inputs and outputs hold a text
that is not JSON, a null and a value of an unrecognised type converts. -/
theorem convertLegacyFlow_fails_iff_witness :
    ∃ d, convertLegacyFlow sampleCollab
      (sampleDefinition
        [sampleTask "a" (some (sampleActivity none
          (AList.singleton "s" (Any.str "not json"))
          (AList.singleton "i" Any.null)
          (AList.singleton "o" (Any.other 7))))] none) = Except.ok d :=
  (convertLegacyFlow_fails_iff sampleCollab
    (sampleDefinition
      [sampleTask "a" (some (sampleActivity none
        (AList.singleton "s" (Any.str "not json"))
        (AList.singleton "i" Any.null)
        (AList.singleton "o" (Any.other 7))))] none)).2 rfl rfl
    (by
      intro t act hw hact
      rcases hw with hmem | ⟨h, hh, _⟩
      · simp only [sampleDefinition, List.mem_singleton] at hmem
        subst hmem
        cases hact
        rfl
      · cases hh)

end Flow
